import Mathlib

set_option maxRecDepth 100000

/-!
Verification of the product-extraction core of the astrowardrobeactor
repository (src/src/lib/utils.js and src/src/lib/extractors.js) against its
natural-language specification.

The JavaScript data model is shallowly embedded: JS values become the
inductive `JSValue`, JS numbers become `JSNum` (NaN and the infinities are
explicit; finite doubles are modelled as exact rationals, with parse
overflow to infinity at 2^1024), and property access on `null`/`undefined`
— the only data-shape way the extraction code can throw — is modelled by
the `Except`-valued `jsGetE`.  Property access that the source performs
only after its own truthiness guard is modelled by the total `jsGet`.
The WHATWG URL and JSON.parse primitives used by the code are external
runtime facilities; URLs are modelled by a small parser covering the
http(s) scheme//host/path?query shapes the code manipulates, and
JSON.parse is an oracle field of the page model.
-/

/-- Model of a JavaScript number: NaN, the two infinities, or a finite
value represented as an exact rational. -/
inductive JSNum where
  | nan
  | posInf
  | negInf
  | fin (q : ℚ)
deriving DecidableEq, Repr

/-- Model of the JS `isNaN` test on a number. -/
def JSNum.isNaN : JSNum → Bool
  | .nan => true
  | _ => false

/-- Truthiness of a JS number: NaN and 0 are falsy. -/
def JSNum.truthy : JSNum → Bool
  | .nan => false
  | .fin q => q ≠ 0
  | _ => true

/-- A JS number is non-negative when it is +Infinity or a rational ≥ 0. -/
def JSNum.nonNeg : JSNum → Prop
  | .posInf => True
  | .fin q => 0 ≤ q
  | _ => False

instance : DecidablePred JSNum.nonNeg := fun n => by
  cases n <;> simp [JSNum.nonNeg] <;> infer_instance

/-- Model of a structured-clone-safe JavaScript value. -/
inductive JSValue where
  | vNull
  | vUndefined
  | vBool (b : Bool)
  | vNum (n : JSNum)
  | vStr (s : String)
  | vArr (elems : List JSValue)
  | vObj (fields : List (String × JSValue))
deriving Repr

/-- Structural equality test for JSValue (used to model JS Set dedup of
string entries; object entries compare structurally — model note). -/
def jsValueBEq : JSValue → JSValue → Bool
  | .vNull, .vNull => true
  | .vUndefined, .vUndefined => true
  | .vBool a, .vBool b => a == b
  | .vNum a, .vNum b => a == b
  | .vStr a, .vStr b => a == b
  | .vArr a, .vArr b => jsValueListBEq a b
  | .vObj a, .vObj b => jsValuePairsBEq a b
  | _, _ => false
where
  jsValueListBEq : List JSValue → List JSValue → Bool
    | [], [] => true
    | x :: xs, y :: ys => jsValueBEq x y && jsValueListBEq xs ys
    | _, _ => false
  jsValuePairsBEq : List (String × JSValue) → List (String × JSValue) → Bool
    | [], [] => true
    | (k, x) :: xs, (l, y) :: ys => k == l && jsValueBEq x y && jsValuePairsBEq xs ys
    | _, _ => false

instance : BEq JSValue := ⟨jsValueBEq⟩

/-- Truthiness of a JS value. -/
def jsTruthy : JSValue → Bool
  | .vNull => false
  | .vUndefined => false
  | .vBool b => b
  | .vNum n => n.truthy
  | .vStr s => s ≠ ""
  | .vArr _ => true
  | .vObj _ => true

/-- Model of `typeof v === 'object'`; note that in JS `typeof null` is
also `'object'`. -/
def jsTypeofObject : JSValue → Bool
  | .vNull => true
  | .vArr _ => true
  | .vObj _ => true
  | _ => false

/-- Model of `Array.isArray`. -/
def jsIsArray : JSValue → Bool
  | .vArr _ => true
  | _ => false

/-- Model of `typeof v === 'string'`. -/
def jsIsString : JSValue → Bool
  | .vStr _ => true
  | _ => false

/-- Model of `typeof v === 'number'`. -/
def jsIsNumber : JSValue → Bool
  | .vNum _ => true
  | _ => false

/-- Total property access: used only where the source reads a property of
a value it has already checked truthy (so never null/undefined), or where
the base is a primitive (JS boxes primitives; the read yields undefined,
it does not throw). -/
def jsGet (v : JSValue) (p : String) : JSValue :=
  match v with
  | .vObj fields => (fields.lookup p).getD .vUndefined
  | _ => .vUndefined

/-- Property access that faithfully throws on null/undefined, used at the
source's unguarded access sites. -/
def jsGetE (v : JSValue) (p : String) : Except String JSValue :=
  match v with
  | .vNull => .error ("TypeError: Cannot read properties of null (reading " ++ p ++ ")")
  | .vUndefined => .error ("TypeError: Cannot read properties of undefined (reading " ++ p ++ ")")
  | _ => .ok (jsGet v p)

/-- Optional chaining `v?.p`. -/
def jsGetOpt (v : JSValue) (p : String) : JSValue :=
  match v with
  | .vNull => .vUndefined
  | .vUndefined => .vUndefined
  | _ => jsGet v p

/-- Array indexing `a[i]`: undefined when out of range or not an array. -/
def jsIndex (v : JSValue) (i : Nat) : JSValue :=
  match v with
  | .vArr xs => (xs.drop i).headD .vUndefined
  | _ => .vUndefined

/-- Model of the JS `||` operator. -/
def jsOr (a b : JSValue) : JSValue :=
  if jsTruthy a then a else b

/-- Model of the JS `&&` operator. -/
def jsAnd (a b : JSValue) : JSValue :=
  if jsTruthy a then b else a

/-- Length of a JS array value (`.length`); 0 for non-arrays (the source
only reads `.length` on values it has checked with `Array.isArray`). -/
def jsLength : JSValue → Nat
  | .vArr xs => xs.length
  | _ => 0

/-- Conversion of a JS number to a string.  Model note: decimal rendering
of non-integral doubles is approximated by the rational `num/den` form;
the claims under verification never depend on that rendering. -/
def jsNumToString : JSNum → String
  | .nan => "NaN"
  | .posInf => "Infinity"
  | .negInf => "-Infinity"
  | .fin q => if q.den = 1 then toString q.num else toString q.num ++ "/" ++ toString q.den

mutual

/-- Model of JS `String(v)` conversion. -/
def jsToString : JSValue → String
  | .vNull => "null"
  | .vUndefined => "undefined"
  | .vBool b => cond b "true" "false"
  | .vNum n => jsNumToString n
  | .vStr s => s
  | .vArr xs => jsToStringList xs
  | .vObj _ => "[object Object]"

/-- Array-to-string: elements joined with commas, null/undefined elements
rendered empty, as in JS `Array.prototype.toString`. -/
def jsToStringList : List JSValue → String
  | [] => ""
  | [x] => jsToStringElem x
  | x :: xs => jsToStringElem x ++ "," ++ jsToStringList xs

/-- A single array element in array-to-string conversion. -/
def jsToStringElem : JSValue → String
  | .vNull => ""
  | .vUndefined => ""
  | v => jsToString v

end

/-- The own enumerable key/value pairs of a value, as visited by
`for (const key in obj)`.  Model note: JS visits integer-like keys in
ascending numeric order before other keys; the embedding visits fields in
their listed order, which agrees for the pages under study. -/
def jsOwnPairs : JSValue → List (String × JSValue)
  | .vObj fields => fields
  | .vArr xs => (xs.enum.map fun p => (toString p.1, p.2))
  | _ => []

/-- Truthiness for a nullable JS string (getAttribute / textContent
results): null and the empty string are falsy. -/
def strTruthy : Option String → Bool
  | none => false
  | some s => s ≠ ""

/-- The JS `||` operator restricted to nullable strings. -/
def jsOrS (a b : Option String) : Option String :=
  if strTruthy a then a else b

/-- Keep-first-occurrence deduplication with an accumulator of already
seen entries. -/
def jsSetDedupAux (seen : List String) : List String → List String
  | [] => []
  | x :: xs =>
    if seen.contains x then jsSetDedupAux seen xs
    else x :: jsSetDedupAux (x :: seen) xs

/-- Keep-first-occurrence deduplication, the order JS
`[...new Set(xs)]` produces. -/
def jsSetDedup (xs : List String) : List String := jsSetDedupAux [] xs

/-- Keep-first-occurrence deduplication of JS values with an accumulator. -/
def jsSetDedupVAux (seen : List JSValue) : List JSValue → List JSValue
  | [] => []
  | x :: xs =>
    if seen.any (fun y => jsValueBEq y x) then jsSetDedupVAux seen xs
    else x :: jsSetDedupVAux (x :: seen) xs

/-- Keep-first-occurrence deduplication of JS values (Set of mixed
entries in the in-page image search). -/
def jsSetDedupV (xs : List JSValue) : List JSValue := jsSetDedupVAux [] xs

/-- Substring test on character lists. -/
def charsContains (hay pat : List Char) : Bool :=
  match hay with
  | [] => pat.isEmpty
  | _ :: rest => pat.isPrefixOf hay || charsContains rest pat

/-- Model of JS `String.prototype.includes`. -/
def strContains (hay pat : String) : Bool :=
  charsContains hay.toList pat.toList

/-- JS whitespace class `\s` (model: Unicode whitespace). -/
def jsIsSpace (c : Char) : Bool := c.isWhitespace

/-- ASCII lowercasing of one character (all cased characters appearing in
the data under study are ASCII). -/
def charLower (c : Char) : Char :=
  if 'A' ≤ c && c ≤ 'Z' then Char.ofNat (c.toNat + 32) else c

/-- ASCII uppercasing of one character. -/
def charUpper (c : Char) : Char :=
  if 'a' ≤ c && c ≤ 'z' then Char.ofNat (c.toNat - 32) else c

/-- Model of `String.prototype.toLowerCase`. -/
def strLower (s : String) : String := String.mk (s.toList.map charLower)

/-- Model of `String.prototype.toUpperCase`. -/
def strUpper (s : String) : String := String.mk (s.toList.map charUpper)

/-- Model of `String.prototype.trim`. -/
def strTrim (s : String) : String :=
  String.mk (((s.toList.dropWhile jsIsSpace).reverse.dropWhile jsIsSpace).reverse)

/-- Model of `String.prototype.startsWith`. -/
def strStarts (s pre : String) : Bool := pre.toList.isPrefixOf s.toList

/-- Model of `String.prototype.endsWith`. -/
def strEnds (s suf : String) : Bool := suf.toList.isSuffixOf s.toList

/-- Split a character list on a separator character (JS `split(sep)`). -/
def splitOnChar (sep : Char) : List Char → List (List Char)
  | [] => [[]]
  | c :: rest =>
    let r := splitOnChar sep rest
    if c = sep then [] :: r
    else
      match r with
      | [] => [[c]]
      | h :: t => (c :: h) :: t

/-- Model of JS `split(sep)` returning strings. -/
def strSplitOnChar (sep : Char) (s : String) : List String :=
  (splitOnChar sep s.toList).map String.mk

/-- Locate the first `://` in a character list, returning the text before
and after it. -/
def splitScheme : List Char → Option (List Char × List Char)
  | [] => none
  | ':' :: '/' :: '/' :: rest => some ([], rest)
  | c :: rest => (splitScheme rest).map (fun p => (c :: p.1, p.2))

/-!
Model of the WHATWG `new URL` primitive, restricted to the
`scheme://host/path?query` shapes the extraction code manipulates.
Parse failure models the constructor throwing.
-/

/-- A parsed URL: scheme, lowercased host, pathname (always starting with
a slash) and search string (empty or starting with a question mark). -/
structure URLRec where
  scheme : String
  host : String
  pathname : String
  search : String
deriving DecidableEq, Repr

/-- Split a host/path/search remainder into its three components. -/
def splitHostRest (rest : List Char) : String × String × String :=
  let host := rest.takeWhile (fun c => c ≠ '/' && c ≠ '?')
  let tail := rest.drop host.length
  match tail with
  | [] => (String.mk host, "/", "")
  | '?' :: _ => (String.mk host, "/", String.mk tail)
  | _ =>
    let path := tail.takeWhile (fun c => c ≠ '?')
    (String.mk host, String.mk path, String.mk (tail.drop path.length))

/-- Model of `new URL(s)`: requires an alphabetic scheme followed by
`://` and a nonempty host.  (Non-special schemes such as `mailto:` are
outside the model; the code under verification only builds http(s) URLs.) -/
def parseURL (s : String) : Option URLRec :=
  match splitScheme s.toList with
  | none => none
  | some (schemeCs, rest) =>
    if schemeCs.isEmpty || !schemeCs.all Char.isAlpha then none
    else
      let (host, path, search) := splitHostRest rest
      if host = "" then none
      else some ⟨strLower (String.mk schemeCs), strLower host, path, search⟩

/-- Serialization (`.href`) of a parsed URL. -/
def hrefOf (u : URLRec) : String :=
  u.scheme ++ "://" ++ u.host ++ u.pathname ++ u.search

/-- Split a relative reference into path and search parts. -/
def splitPathSearch (s : String) : String × String :=
  let cs := s.toList
  let path := cs.takeWhile (fun c => c ≠ '?')
  (String.mk path, String.mk (cs.drop path.length))

/-- The directory of a pathname: everything up to and including the last
slash. -/
def dirOf (pathname : String) : String :=
  let cs := pathname.toList
  let keep := cs.length - (cs.reverse.takeWhile (fun c => c ≠ '/')).length
  String.mk (cs.take keep)

/-- Model of `new URL(u, base)` for an already-parsed base (dot-segment
normalization is not modelled; the inputs under study contain none). -/
def resolveRel (u : String) (base : URLRec) : Option URLRec :=
  if strStarts u "//" then
    parseURL (base.scheme ++ ":" ++ u)
  else if strContains u "://" then
    parseURL u
  else if strStarts u "/" then
    let (p, q) := splitPathSearch u
    some { base with pathname := p, search := q }
  else if strStarts u "?" then
    some { base with search := u }
  else
    let (p, q) := splitPathSearch u
    some { base with pathname := dirOf base.pathname ++ p, search := q }

/-!
Embedding of src/src/lib/utils.js.
-/

/-- Embedding of `extractDomain(url)`: hostname of the parsed URL with a
leading `www.` stripped; null when `new URL` throws. -/
def extractDomain (url : String) : Option String :=
  match parseURL url with
  | none => none
  | some u =>
    some (if strStarts u.host "www." then String.mk (u.host.toList.drop 4) else u.host)

/-- Symbol-to-ISO table of `normalizeCurrency`. -/
def currencySymbolMap : List (String × String) :=
  [("€", "EUR"), ("$", "USD"), ("£", "GBP"), ("¥", "JPY"),
   ("₹", "INR"), ("₽", "RUB"), ("₴", "UAH"), ("₸", "KZT")]

/-- Name-to-ISO table of `normalizeCurrency` (the source lists RUBLE
twice; a JS object literal keeps one entry). -/
def currencyNameMap : List (String × String) :=
  [("EURO", "EUR"), ("DOLLAR", "USD"), ("POUND", "GBP"), ("YEN", "JPY"), ("RUBLE", "RUB")]

/-- Test for the regex `^[A-Z]{3}$`. -/
def isUpperThree (s : String) : Bool :=
  s.toList.length = 3 && s.toList.all (fun c => 'A' ≤ c && c ≤ 'Z')

/-- Embedding of `normalizeCurrency(currency)`. -/
def normalizeCurrency (currency : JSValue) : Option String :=
  if !jsTruthy currency || !jsIsString currency then none
  else
    match currency with
    | .vStr s =>
      let normalized := strUpper (strTrim s)
      match currencySymbolMap.lookup normalized with
      | some iso => some iso
      | none =>
        match currencyNameMap.lookup normalized with
        | some iso => some iso
        | none => if isUpperThree normalized then some normalized else none
    | _ => none

/-- The eight currency symbol characters stripped by `extractPrice`. -/
def isCurrencySymbolChar (c : Char) : Bool :=
  c = '€' || c = '$' || c = '£' || c = '¥' || c = '₹' || c = '₽' || c = '₴' || c = '₸'

/-- Numeric value of a digit run. -/
def digitsVal (cs : List Char) : ℕ :=
  cs.foldl (fun acc c => 10 * acc + (c.toNat - '0'.toNat)) 0

/-- Model of `parseFloat` applied to a nonempty run of digits and dots:
leading digits, then an optional dot with following digits; all dots and
no digits give NaN.  The value `int.frac` equals
`digits(int ++ frac) / 10 ^ length frac`; values at or above the IEEE
double overflow bound `2 ^ 1024` become Infinity (model note: real
doubles round to 53-bit precision, which no claim depends on). -/
def parseFloatRun (cs : List Char) : JSNum :=
  let intPart := cs.takeWhile Char.isDigit
  let rest := cs.drop intPart.length
  let frac :=
    match rest with
    | '.' :: r => r.takeWhile Char.isDigit
    | _ => []
  if intPart.isEmpty && frac.isEmpty then .nan
  else
    let digits := digitsVal (intPart ++ frac)
    if 2 ^ 1024 * 10 ^ frac.length ≤ digits then .posInf
    else .fin (mkRat digits (10 ^ frac.length))

/-- First match of the regex `[\d.]+`: the first maximal run of digits
and dots. -/
def firstNumRun (cs : List Char) : Option (List Char) :=
  let dropped := cs.dropWhile (fun c => !(c.isDigit || c = '.'))
  match dropped with
  | [] => none
  | _ => some (dropped.takeWhile (fun c => c.isDigit || c = '.'))

/-- Embedding of `extractPrice(price)`. -/
def extractPrice (price : JSValue) : Option JSNum :=
  match price with
  | .vNull => none
  | .vUndefined => none
  | .vNum n => if n.isNaN then none else some n
  | .vStr s =>
    let cleaned :=
      ((s.toList.filter (fun c => !isCurrencySymbolChar c)).filter
        (fun c => c ≠ ',')).filter (fun c => !jsIsSpace c)
    match firstNumRun cleaned with
    | none => none
    | some run =>
      let num := parseFloatRun run
      if num.isNaN then none else some num
  | _ => none

/-- Embedding of `resolveUrl(url, baseUrl)`. -/
def resolveUrl (url : JSValue) (baseUrl : String) : Option String :=
  if !jsTruthy url || !jsIsString url then none
  else
    match url with
    | .vStr u =>
      if strStarts u "http://" || strStarts u "https://" then some u
      else
        match parseURL baseUrl with
        | none => none
        | some base => (resolveRel u base).map hrefOf
    | _ => none

/-- Embedding of `normalizeEmpty(value)`. -/
def normalizeEmpty (value : JSValue) : JSValue :=
  match value with
  | .vUndefined => .vNull
  | .vStr s => if strTrim s = "" then .vNull else .vStr s
  | v => v

/-!
Regex helpers for `getLargestImages` in src/src/lib/utils.js.  Each global
`replace(...,'')` is modelled as a single left-to-right scan that removes
non-overlapping matches, resuming after each removed match — the regex
`/g` semantics.  Scans use an explicit fuel equal to the input length so
that they reduce by kernel computation.
-/

/-- Match `[w]?\d+` immediately after an underscore, returning the
remainder after the match. -/
def matchUnderscoreNum (cs : List Char) : Option (List Char) :=
  match cs with
  | 'w' :: rest =>
    if rest.headD ' ' |>.isDigit then some (rest.dropWhile Char.isDigit)
    else if cs.headD ' ' |>.isDigit then some (cs.dropWhile Char.isDigit)
    else none
  | _ =>
    if cs.headD ' ' |>.isDigit then some (cs.dropWhile Char.isDigit)
    else none

/-- Removal scan for `/_[w]?\d+/g`. -/
def stripUnderscoreNumAux : Nat → List Char → List Char
  | 0, cs => cs
  | fuel + 1, cs =>
    match cs with
    | [] => []
    | c :: rest =>
      if c = '_' then
        match matchUnderscoreNum rest with
        | some rem => stripUnderscoreNumAux fuel rem
        | none => c :: stripUnderscoreNumAux fuel rest
      else c :: stripUnderscoreNumAux fuel rest

/-- Model of `url.replace(/_[w]?\d+/g, '')`. -/
def stripUnderscoreNum (cs : List Char) : List Char :=
  stripUnderscoreNumAux cs.length cs

/-- Case-insensitive prefix test against an all-lowercase pattern. -/
def ciPrefix (pat cs : List Char) : Bool :=
  (cs.take pat.length).map charLower = pat

/-- The size-name alternatives of `/_(small|medium|large|xl|xxl|xxxl)/gi`,
tried in the regex's alternation order. -/
def sizeNameWords : List (List Char) :=
  [['s','m','a','l','l'], ['m','e','d','i','u','m'], ['l','a','r','g','e'],
   ['x','l'], ['x','x','l'], ['x','x','x','l']]

/-- Match one size-name alternative after an underscore. -/
def matchSizeName (cs : List Char) : Option (List Char) :=
  sizeNameWords.findSome? (fun w => if ciPrefix w cs then some (cs.drop w.length) else none)

/-- Removal scan for `/_(small|medium|large|xl|xxl|xxxl)/gi`. -/
def stripSizeNamesAux : Nat → List Char → List Char
  | 0, cs => cs
  | fuel + 1, cs =>
    match cs with
    | [] => []
    | c :: rest =>
      if c = '_' then
        match matchSizeName rest with
        | some rem => stripSizeNamesAux fuel rem
        | none => c :: stripSizeNamesAux fuel rest
      else c :: stripSizeNamesAux fuel rest

/-- Model of `url.replace(/_(small|medium|large|xl|xxl|xxxl)/gi, '')`. -/
def stripSizeNames (cs : List Char) : List Char :=
  stripSizeNamesAux cs.length cs

/-- Match `key=\d+` (key compared case-insensitively) after a `?` or `&`,
returning the remainder. -/
def matchQueryNum (key : List Char) (cs : List Char) : Option (List Char) :=
  if ciPrefix key cs then
    match cs.drop key.length with
    | '=' :: ds =>
      if ds.headD ' ' |>.isDigit then some (ds.dropWhile Char.isDigit) else none
    | _ => none
  else none

/-- Removal scan for `/[?&]key=\d+/gi`. -/
def stripQueryNumAux (key : List Char) : Nat → List Char → List Char
  | 0, cs => cs
  | fuel + 1, cs =>
    match cs with
    | [] => []
    | c :: rest =>
      if c = '?' || c = '&' then
        match matchQueryNum key rest with
        | some rem => stripQueryNumAux key fuel rem
        | none => c :: stripQueryNumAux key fuel rest
      else c :: stripQueryNumAux key fuel rest

/-- Model of `url.replace(/[?&]key=\d+/gi, '')` for a given key. -/
def stripQueryNum (key : String) (cs : List Char) : List Char :=
  stripQueryNumAux key.toList cs.length cs

/-- Match `\d+x\d+` or `w_\d+` after a slash, returning the remainder. -/
def matchSlashSize (cs : List Char) : Option (List Char) :=
  let d1 := cs.takeWhile Char.isDigit
  let afterD1 := cs.drop d1.length
  match afterD1 with
  | x :: rest =>
    if !d1.isEmpty && (x = 'x' || x = 'X') && (rest.headD ' ' |>.isDigit) then
      some (rest.dropWhile Char.isDigit)
    else
      match cs with
      | w :: '_' :: ds =>
        if (w = 'w' || w = 'W') && (ds.headD ' ' |>.isDigit) then
          some (ds.dropWhile Char.isDigit)
        else none
      | _ => none
  | [] =>
    match cs with
    | w :: '_' :: ds =>
      if (w = 'w' || w = 'W') && (ds.headD ' ' |>.isDigit) then
        some (ds.dropWhile Char.isDigit)
      else none
    | _ => none

/-- Removal scan for `/\/\d+x\d+|\/w_\d+/gi`. -/
def stripSlashSizeAux : Nat → List Char → List Char
  | 0, cs => cs
  | fuel + 1, cs =>
    match cs with
    | [] => []
    | c :: rest =>
      if c = '/' then
        match matchSlashSize rest with
        | some rem => stripSlashSizeAux fuel rem
        | none => c :: stripSlashSizeAux fuel rest
      else c :: stripSlashSizeAux fuel rest

/-- Model of `url.replace(/\/\d+x\d+|\/w_\d+/gi, '')`. -/
def stripSlashSize (cs : List Char) : List Char :=
  stripSlashSizeAux cs.length cs

/-- The per-URL upgrade callback of `getLargestImages`; `none` models the
callback returning null for a falsy entry. -/
def upgradeImageUrl (url : String) : Option String :=
  if url = "" then none
  else
    let l1 := stripUnderscoreNum url.toList
    let l2 := stripSizeNames l1
    let l3 := stripQueryNum "w" l2
    let l4 := stripQueryNum "width" l3
    let l5 := stripQueryNum "h" l4
    let l6 := stripQueryNum "height" l5
    let largestUrl := String.mk l6
    if strContains largestUrl "imagekit.io" || strContains largestUrl "cloudinary.com" then
      some url
    else if strContains largestUrl "static.zara.net" || strContains largestUrl "st.mngbcn.com" then
      let noQuery := (strSplitOnChar '?' largestUrl).headD ""
      let withoutSize := String.mk (stripSlashSize noQuery.toList)
      some (if withoutSize ≠ "" then withoutSize else noQuery)
    else
      some (if largestUrl ≠ "" then largestUrl else url)

/-- Embedding of `getLargestImages(imageUrls)`. -/
def getLargestImages (imageUrls : List String) : List String :=
  if imageUrls.isEmpty then []
  else imageUrls.filterMap upgradeImageUrl

/-!
Model of the rendered page as seen through the Playwright calls the
extractors make.  DOM elements carry the properties and attributes the
image/text/sku probes read; CSS matching itself is abstracted as oracle
functions on selector strings, and `JSON.parse` of attribute payloads is
an oracle for the JS runtime primitive.
-/

/-- A DOM element handle: tag name, attributes, text content, the `src`
and `srcset` IDL properties (empty string when unset, as in the DOM), the
parent element, and the first `source` child returned by
`querySelector('source')`. -/
inductive Elem where
  | mk (tagName : String) (attrs : List (String × String)) (text : Option String)
      (srcProp : String) (srcsetProp : String)
      (parent : Option Elem) (firstSource : Option Elem)

/-- Tag name of an element. -/
def Elem.tag : Elem → String
  | .mk t _ _ _ _ _ _ => t

/-- Model of `getAttribute`: the attribute's string or null. -/
def Elem.attr : Elem → String → Option String
  | .mk _ attrs _ _ _ _ _, name => attrs.lookup name

/-- Model of `textContent`. -/
def Elem.text : Elem → Option String
  | .mk _ _ t _ _ _ _ => t

/-- The `src` IDL property of an `img` element. -/
def Elem.src : Elem → String
  | .mk _ _ _ s _ _ _ => s

/-- The `srcset` IDL property of an `img` element. -/
def Elem.srcset : Elem → String
  | .mk _ _ _ _ s _ _ => s

/-- The parent element. -/
def Elem.parentElem : Elem → Option Elem
  | .mk _ _ _ _ _ p _ => p

/-- The first `source` child. -/
def Elem.firstSource : Elem → Option Elem
  | .mk _ _ _ _ _ _ s => s

/-- The page model: parsed JSON-LD script payloads (a parse failure is
the `null` the source maps it to, removed by its `filter(Boolean)`),
window globals, the two query oracles (`page.$` / `page.$$eval` element
lists) and the `JSON.parse` runtime primitive. -/
structure Page where
  jsonLdScripts : List JSValue
  globals : List (String × JSValue)
  queryOne : String → Option Elem
  queryAll : String → List Elem
  jsonParse : String → Option JSValue

/-- Read of a window global by name (undefined when absent). -/
def winGet (page : Page) (name : String) : JSValue :=
  (page.globals.lookup name).getD .vUndefined

/-- Test for `=== undefined`. -/
def jsIsUndefined : JSValue → Bool
  | .vUndefined => true
  | _ => false

/-!
Embedding of src/src/lib/extractors.js.
-/

/-- The per-field result record the three readers produce. -/
structure ExtractResult where
  title : JSValue
  description : JSValue
  price : JSValue
  currency : JSValue
  sku : JSValue
  images : List String
deriving Repr

/-- The all-null result every reader starts from. -/
def emptyExtract : ExtractResult :=
  { title := .vNull, description := .vNull, price := .vNull,
    currency := .vNull, sku := .vNull, images := [] }

/-- The Product-type test
`x['@type'] === 'Product' || (Array.isArray(x['@type']) && x['@type'].includes('Product'))`. -/
def jsIsProductType (t : JSValue) : Bool :=
  (match t with
   | .vStr s => s = "Product"
   | _ => false) ||
  (match t with
   | .vArr xs => xs.any (fun x =>
       match x with
       | .vStr s => s = "Product"
       | _ => false)
   | _ => false)

/-- The `find` callback over a `@graph` array; reading `@type` of a null
graph entry throws, as in the source. -/
def findProductInGraph : List JSValue → Except String (Option JSValue)
  | [] => .ok none
  | item :: rest => do
    let t ← jsGetE item "@type"
    if jsIsProductType t then pure (some item) else findProductInGraph rest

/-- The scan of `extractJsonLd` over the truthy parsed blocks: a block
whose own `@type` matches is returned at once; otherwise a truthy
`@graph` is searched before the next block is examined.  Calling `find`
on a truthy non-array `@graph` throws, aborting the whole scan. -/
def extractJsonLdLoop : List JSValue → Except String JSValue
  | [] => .ok .vNull
  | b :: rest =>
    if jsIsProductType (jsGet b "@type") then .ok b
    else
      let g := jsGet b "@graph"
      if jsTruthy g then
        match g with
        | .vArr items => do
          match ← findProductInGraph items with
          | some p => pure p
          | none => extractJsonLdLoop rest
        | _ => .error "TypeError: jsonLd['@graph'].find is not a function"
      else extractJsonLdLoop rest

/-- Embedding of `extractJsonLd(page)`: the outer try/catch turns any
throw into null. -/
def extractJsonLd (page : Page) : JSValue :=
  match extractJsonLdLoop (page.jsonLdScripts.filter jsTruthy) with
  | .ok v => v
  | .error _ => .vNull

/-- The dotted-path walk the script-state reader evaluates in page
context; the `none` state is the window object itself (`window.window`
is again the window). -/
def walkParts (page : Page) : List String → Option JSValue → JSValue
  | [], st =>
    match st with
    | some v => v
    | none => .vUndefined
  | p :: ps, none =>
    if p = "window" then walkParts page ps none
    else walkParts page ps (some (winGet page p))
  | p :: ps, some v =>
    if jsTruthy v && jsTypeofObject v then walkParts page ps (some (jsGet v p))
    else .vNull

/-- One global-state pattern evaluated against the page. -/
def evalPattern (page : Page) (pattern : String) : JSValue :=
  walkParts page (strSplitOnChar '.' pattern) none

/-- The fixed, ordered global-state variable names of
`extractEmbeddedJson`. -/
def embeddedPatterns : List String :=
  ["window.INITIAL_STATE", "window.__INITIAL_STATE__", "window.__PRELOADED_STATE__",
   "window.productData", "window.product", "__NEXT_DATA__", "window.__APOLLO_STATE__"]

/-- Embedding of `extractEmbeddedJson(page)`: first truthy object among
the global patterns, then the data-attribute fallback whose JSON-parse
failure is swallowed. -/
def extractEmbeddedJson (page : Page) : JSValue :=
  match embeddedPatterns.findSome? (fun p =>
      let value := evalPattern page p
      if jsTruthy value && jsTypeofObject value then some value else none) with
  | some v => v
  | none =>
    match page.queryOne "[data-state], [data-product], [data-product-data]" with
    | some el =>
      let state := jsOrS (el.attr "data-state") (jsOrS (el.attr "data-product") (el.attr "data-product-data"))
      if strTruthy state then
        match page.jsonParse (state.getD "") with
        | some v => v
        | none => .vNull
      else .vNull
    | none => .vNull

/-- A price value (number or null) as stored into a result field. -/
def optNumToVal : Option JSNum → JSValue
  | some n => .vNum n
  | none => .vNull

/-- A currency value (string or null) as stored into a result field. -/
def optStrToVal : Option String → JSValue
  | some s => .vStr s
  | none => .vNull

/-- The image mapper accepting a URL string or an object with `url`. -/
def imageEntryUrl (baseUrl : String) (img : JSValue) : Option String :=
  match img with
  | .vStr _ => resolveUrl img baseUrl
  | _ =>
    if jsTruthy img && jsTruthy (jsGet img "url") then resolveUrl (jsGet img "url") baseUrl
    else none

/-- The image mapper accepting a URL string or an object with `url` or
`src`. -/
def imageEntryUrlSrc (baseUrl : String) (img : JSValue) : Option String :=
  match img with
  | .vStr _ => resolveUrl img baseUrl
  | _ =>
    if jsTruthy img && jsTruthy (jsGet img "url") then resolveUrl (jsGet img "url") baseUrl
    else if jsTruthy img && jsTruthy (jsGet img "src") then resolveUrl (jsGet img "src") baseUrl
    else none

/-- Embedding of `extractFromJsonLd(jsonLd, baseUrl)`.  Every property
access is performed behind the source's own truthiness guards, so the
function is total. -/
def extractFromJsonLd (jsonLd : JSValue) (baseUrl : String) : ExtractResult :=
  if !jsTruthy jsonLd || !jsTypeofObject jsonLd then emptyExtract
  else
    let title :=
      if jsTruthy (jsGet jsonLd "name") then normalizeEmpty (jsGet jsonLd "name") else .vNull
    let description :=
      if jsTruthy (jsGet jsonLd "description") then normalizeEmpty (jsGet jsonLd "description") else .vNull
    let sku :=
      if jsTruthy (jsGet jsonLd "sku") then normalizeEmpty (.vStr (jsToString (jsGet jsonLd "sku")))
      else if jsTruthy (jsGet jsonLd "productID") then normalizeEmpty (.vStr (jsToString (jsGet jsonLd "productID")))
      else .vNull
    let priceCur :=
      if jsTruthy (jsGet jsonLd "offers") then
        let offers := if jsIsArray (jsGet jsonLd "offers") then jsGet jsonLd "offers" else .vArr [jsGet jsonLd "offers"]
        let offer := jsIndex offers 0
        if jsTruthy offer then
          let price :=
            if !jsIsUndefined (jsGet offer "price") then optNumToVal (extractPrice (jsGet offer "price"))
            else .vNull
          let currency :=
            if jsTruthy (jsGet offer "priceCurrency") then optStrToVal (normalizeCurrency (jsGet offer "priceCurrency"))
            else .vNull
          (price, currency)
        else (JSValue.vNull, JSValue.vNull)
      else (JSValue.vNull, JSValue.vNull)
    let images :=
      if jsTruthy (jsGet jsonLd "image") then
        let imgs :=
          match jsGet jsonLd "image" with
          | .vArr xs => xs
          | v => [v]
        imgs.filterMap (imageEntryUrl baseUrl)
      else []
    { title := title, description := description, price := priceCur.1,
      currency := priceCur.2, sku := sku, images := images }

/-- The product-sub-object search of `extractFromEmbeddedJson`. -/
def locateProduct (e : JSValue) : JSValue :=
  if jsTruthy (jsGet e "product") then jsGet e "product"
  else if jsTruthy (jsGetOpt (jsGet e "data") "product") then jsGetOpt (jsGet e "data") "product"
  else if jsTruthy (jsGetOpt (jsGetOpt (jsGet e "props") "pageProps") "product") then
    jsGetOpt (jsGetOpt (jsGet e "props") "pageProps") "product"
  else if jsTruthy (jsGet e "productData") then jsGet e "productData"
  else if jsTruthy (jsGet e "products") && jsIsArray (jsGet e "products") then
    jsIndex (jsGet e "products") 0
  else .vNull

/-- The title block of `extractFromEmbeddedJson`. -/
def embTitle (product : JSValue) : JSValue :=
  if jsTruthy (jsGet product "name") || jsTruthy (jsGet product "title") || jsTruthy (jsGet product "productName") then
    normalizeEmpty (jsOr (jsOr (jsGet product "name") (jsGet product "title")) (jsGet product "productName"))
  else .vNull

/-- The description block of `extractFromEmbeddedJson`. -/
def embDescription (product : JSValue) : JSValue :=
  if jsTruthy (jsGet product "description") || jsTruthy (jsGet product "detail") || jsTruthy (jsGet product "longDescription") then
    normalizeEmpty (jsOr (jsOr (jsGet product "description") (jsGet product "detail")) (jsGet product "longDescription"))
  else .vNull

/-- The price block of `extractFromEmbeddedJson`: the alias chain, then a
nested `pricing` object, then the first variant.  Reading `price` of the
first variant is the one unguarded access in the extractors — a null
first variant makes it throw. -/
def embPriceE (product : JSValue) : Except String JSValue :=
  if !jsIsUndefined (jsGet product "price") || !jsIsUndefined (jsGet product "priceValue") || !jsIsUndefined (jsGet product "finalPrice") then
    let priceValue := jsOr (jsOr (jsGet product "price") (jsGet product "priceValue")) (jsGet product "finalPrice")
    .ok (optNumToVal (extractPrice priceValue))
  else if jsTruthy (jsGet product "pricing") then
    let pricing := jsGet product "pricing"
    if !jsIsUndefined (jsGet pricing "finalPrice") || !jsIsUndefined (jsGet pricing "price") || !jsIsUndefined (jsGet pricing "currentPrice") then
      let priceValue := jsOr (jsOr (jsGet pricing "finalPrice") (jsGet pricing "price")) (jsGet pricing "currentPrice")
      .ok (optNumToVal (extractPrice priceValue))
    else .ok .vNull
  else if jsTruthy (jsGet product "variants") && jsIsArray (jsGet product "variants") && jsLength (jsGet product "variants") > 0 then do
    let variant := jsIndex (jsGet product "variants") 0
    let vp ← jsGetE variant "price"
    let vpv ← jsGetE variant "priceValue"
    if !jsIsUndefined vp || !jsIsUndefined vpv then
      pure (optNumToVal (extractPrice (jsOr vp vpv)))
    else pure .vNull
  else .ok .vNull

/-- The currency block of `extractFromEmbeddedJson`. -/
def embCurrency (product : JSValue) : JSValue :=
  if jsTruthy (jsGet product "currency") || jsTruthy (jsGet product "priceCurrency") || jsTruthy (jsGet product "currencyCode") then
    optStrToVal (normalizeCurrency (jsOr (jsOr (jsGet product "currency") (jsGet product "priceCurrency")) (jsGet product "currencyCode")))
  else .vNull

/-- The SKU block of `extractFromEmbeddedJson`. -/
def embSku (product : JSValue) : JSValue :=
  if jsTruthy (jsGet product "sku") || jsTruthy (jsGet product "id") || jsTruthy (jsGet product "productId") || jsTruthy (jsGet product "reference") then
    normalizeEmpty (.vStr (jsToString (jsOr (jsOr (jsOr (jsGet product "sku") (jsGet product "id")) (jsGet product "productId")) (jsGet product "reference"))))
  else .vNull

/-- The images block of `extractFromEmbeddedJson`. -/
def embImages (product : JSValue) (baseUrl : String) : List String :=
  if jsTruthy (jsGet product "images") && jsIsArray (jsGet product "images") then
    (match jsGet product "images" with
     | .vArr xs => xs
     | _ => []).filterMap (imageEntryUrlSrc baseUrl)
  else if jsTruthy (jsGet product "image") then
    (match jsGet product "image" with
     | .vArr xs => xs
     | v => [v]).filterMap (imageEntryUrl baseUrl)
  else []

/-- Embedding of `extractFromEmbeddedJson(embeddedJson, baseUrl)`; the
result is `Except` because the variant price access can throw. -/
def extractFromEmbeddedJson (embeddedJson : JSValue) (baseUrl : String) : Except String ExtractResult :=
  if !jsTruthy embeddedJson || !jsTypeofObject embeddedJson then .ok emptyExtract
  else
    let product := locateProduct embeddedJson
    if !jsTruthy product then .ok emptyExtract
    else do
      let price ← embPriceE product
      pure { title := embTitle product, description := embDescription product,
             price := price, currency := embCurrency product,
             sku := embSku product, images := embImages product baseUrl }

/-- Per-domain selector table record; `currency` is optional because two
of the tables (and the generic fallback) have no currency list. -/
structure SelTable where
  title : List String
  description : List String
  price : List String
  currency : Option (List String)
  sku : List String
  images : List String

/-- The `zara.com` entry of `DOMAIN_SELECTORS`. -/
def zaraSelectors : SelTable :=
  { title := ["h1.product-detail-info__header-name", "[data-testid=\"product-title\"]", "h1"],
    description := [".product-detail-description", "[data-testid=\"product-description\"]", ".product-description"],
    price := [".product-detail-info__price", "[data-testid=\"price\"]", ".price", ".money-amount__main"],
    currency := some [".product-detail-info__price", "[data-testid=\"price\"]", ".price", ".money-amount__main", "[data-currency]"],
    sku := ["[data-product-id]", "[data-sku]", ".product-reference", "[data-product-reference]"],
    images :=
      [".product-detail-images__image",
       "img.product-detail-images__image",
       ".product-detail-images img",
       ".product-detail-images picture img",
       ".product-detail-images picture source",
       "[data-testid=\"product-image\"] img",
       "[data-testid=\"product-image\"]",
       ".product-image img",
       ".media-image img",
       "picture img",
       "picture source",
       ".product-gallery img",
       ".gallery img",
       ".product-detail-images source",
       "img[src*=\"static.zara.net\"]",
       "img[data-src*=\"static.zara.net\"]"] }

/-- The `shop.mango.com` entry of `DOMAIN_SELECTORS`. -/
def shopMangoSelectors : SelTable :=
  { title := ["h1.product-title", ".product-name h1", "h1", "[data-testid=\"product-title\"]", ".product-detail-title"],
    description :=
      [".product-description",
       ".product-info-description",
       ".description",
       "[data-testid=\"product-description\"]",
       ".product-detail-description",
       ".product-details-description",
       ".product-info p"],
    price :=
      [".product-price",
       ".price-current",
       "[data-testid=\"price\"]",
       ".product-detail-price",
       ".price",
       ".product-price-current",
       "[data-price]",
       ".money-amount",
       ".product-price-value"],
    currency :=
      some [".product-price",
            ".price-current",
            "[data-currency]",
            ".money-amount",
            "[data-price-currency]"],
    sku :=
      ["[data-product-id]",
       "[data-sku]",
       ".product-reference",
       "[data-product-reference]",
       ".product-code"],
    images :=
      [".product-images img",
       ".product-gallery img",
       ".product-image img",
       ".product-detail-images img",
       ".product-images-container img",
       ".gallery img",
       ".product-media img",
       "[data-testid=\"product-image\"] img",
       "picture img",
       "picture source",
       ".product-carousel img",
       ".product-slider img"] }

/-- The `mango.com` entry of `DOMAIN_SELECTORS` (no currency list). -/
def mangoSelectors : SelTable :=
  { title := ["h1.product-title", ".product-name h1", "h1"],
    description := [".product-description", ".product-info-description", ".description"],
    price := [".product-price", ".price-current", "[data-testid=\"price\"]"],
    currency := none,
    sku := ["[data-product-id]", "[data-sku]", ".product-reference"],
    images := [".product-images img", ".product-gallery img", ".product-image img"] }

/-- The generic fallback table used for unknown domains. -/
def genericSelectors : SelTable :=
  { title := ["h1", ".product-title", "[data-testid=\"product-title\"]"],
    description := [".product-description", ".description", "[data-testid=\"product-description\"]"],
    price := [".price", ".product-price", "[data-testid=\"price\"]"],
    currency := none,
    sku := ["[data-sku]", "[data-product-id]", ".sku"],
    images := [".product-image img", ".product-images img", "img[data-product-image]"] }

/-- The `DOMAIN_SELECTORS[domain] || generic` lookup (a null domain
misses the table and falls back to the generic entry). -/
def selectorsForDomain (domain : Option String) : SelTable :=
  match domain with
  | some "zara.com" => zaraSelectors
  | some "shop.mango.com" => shopMangoSelectors
  | some "mango.com" => mangoSelectors
  | _ => genericSelectors

/-- The country-code-to-currency table of the URL-locale fallback. -/
def countryCurrencyMap : List (String × String) :=
  [("us", "USD"), ("uk", "GBP"), ("gb", "GBP"), ("cy", "EUR"), ("de", "EUR"),
   ("fr", "EUR"), ("es", "EUR"), ("it", "EUR"), ("nl", "EUR"), ("be", "EUR"),
   ("at", "EUR"), ("pt", "EUR"), ("ie", "EUR"), ("fi", "EUR"), ("pl", "PLN"),
   ("cz", "CZK"), ("se", "SEK"), ("dk", "DKK"), ("no", "NOK"), ("ch", "CHF"),
   ("jp", "JPY"), ("cn", "CNY"), ("au", "AUD"), ("ca", "CAD"), ("mx", "MXN"),
   ("br", "BRL"), ("ru", "RUB"), ("ua", "UAH"), ("kz", "KZT"), ("tr", "TRY"),
   ("ae", "AED"), ("sa", "SAR")]

/-- First selector whose element has text with nonempty trim, returning
that raw text (the `text && text.trim()` loop pattern). -/
def selFirstText (page : Page) : List String → Option String
  | [] => none
  | s :: rest =>
    match page.queryOne s with
    | some el =>
      match el.text with
      | some t => if strTrim t ≠ "" then some t else selFirstText page rest
      | none => selFirstText page rest
    | none => selFirstText page rest

/-- The dedicated currency-selector loop: a data attribute read first,
falling through to the element text when the attribute is absent or does
not normalize. -/
def currencyLoop (page : Page) : List String → Option String
  | [] => none
  | s :: rest =>
    match page.queryOne s with
    | some el =>
      let currencyAttr := jsOrS (el.attr "data-currency") (jsOrS (el.attr "currency") (el.attr "data-currency-code"))
      let fromAttr : Option String :=
        if strTruthy currencyAttr then normalizeCurrency (.vStr (currencyAttr.getD "")) else none
      match fromAttr with
      | some c => some c
      | none =>
        match el.text with
        | some t =>
          if t ≠ "" && strTrim t ≠ "" then
            match normalizeCurrency (.vStr t) with
            | some c => some c
            | none => currencyLoop page rest
          else currencyLoop page rest
        | none => currencyLoop page rest
    | none => currencyLoop page rest

/-- Model of `page.$eval(sel, el => el.content).catch(() => null)`:
null when the element is missing, the reflected `content` property
(empty string default) otherwise. -/
def metaOf (page : Page) (sel : String) : Option String :=
  (page.queryOne sel).map (fun el => (el.attr "content").getD "")

/-- The window globals probed by the currency-from-state fallback. -/
def currencyGlobalNames : List String :=
  ["__INITIAL_STATE__", "__PRELOADED_STATE__", "productData", "product", "priceData"]

/-- The in-page currency search over the window globals. -/
def evalCurrencyFromGlobals (page : Page) : JSValue :=
  match (currencyGlobalNames.map (winGet page)).findSome? (fun data =>
      if jsTruthy data && jsTypeofObject data then
        let c := jsOr (jsGet data "currency")
          (jsOr (jsGet data "priceCurrency")
            (jsOr (jsGet data "currencyCode")
              (jsOr (jsGetOpt (jsGet data "price") "currency")
                (jsGetOpt (jsGet data "product") "currency"))))
        if jsTruthy c then some c else none
      else none) with
  | some c => c
  | none => .vNull

/-- The SKU-selector loop with its attribute chain ending in text
content. -/
def skuLoop (page : Page) : List String → Option String
  | [] => none
  | s :: rest =>
    match page.queryOne s with
    | some el =>
      let sku := jsOrS (el.attr "data-sku")
        (jsOrS (el.attr "data-product-id")
          (jsOrS (el.attr "data-product-reference")
            (jsOrS (el.attr "data-reference")
              (jsOrS (el.attr "id")
                (jsOrS (el.attr "data-id") el.text)))))
      match sku with
      | some t => if t ≠ "" && strTrim t ≠ "" then some (strTrim t) else skuLoop page rest
      | none => skuLoop page rest
    | none => skuLoop page rest

/-- Digits (optionally preceded by a `p`/`P`) at the current position,
the capture group of the regex `-?p?(\d+)` (flag i). -/
def matchPDigits (cs : List Char) : Option String :=
  match cs with
  | c :: rest =>
    if c.isDigit then some (String.mk (cs.takeWhile Char.isDigit))
    else if (c = 'p' || c = 'P') && (rest.headD ' ' |>.isDigit) then
      some (String.mk (rest.takeWhile Char.isDigit))
    else none
  | [] => none

/-- Unanchored search for the regex `-?p?(\d+)` (flag i), returning the first capture. -/
def skuRegexCapture : List Char → Option String
  | [] => none
  | c :: rest =>
    match (if c = '-' then matchPDigits rest else matchPDigits (c :: rest)) with
    | some cap => some cap
    | none => skuRegexCapture rest

/-- The product-id-in-URL fallback over the path segments. -/
def urlSku (baseUrl : String) : Option String :=
  match parseURL baseUrl with
  | none => none
  | some u =>
    let pathParts := (strSplitOnChar '/' u.pathname).filter (fun p => p ≠ "")
    pathParts.findSome? (fun part =>
      match skuRegexCapture part.toList with
      | some cap => if cap ≠ "" then some cap else none
      | none =>
        if part.toList.length ≥ 6 && part.toList.all Char.isDigit then some part
        else none)

/-- The window globals probed by the SKU-from-state fallback. -/
def skuGlobalNames : List String :=
  ["__INITIAL_STATE__", "__PRELOADED_STATE__", "productData", "product", "productInfo"]

/-- The in-page SKU search over the window globals. -/
def evalSkuFromGlobals (page : Page) : Option String :=
  (skuGlobalNames.map (winGet page)).findSome? (fun data =>
    if jsTruthy data && jsTypeofObject data then
      let sku := jsOr (jsGet data "sku")
        (jsOr (jsGet data "productId")
          (jsOr (jsGet data "id")
            (jsOr (jsGetOpt (jsGet data "product") "sku")
              (jsOr (jsGetOpt (jsGet data "product") "id")
                (jsOr (jsGet data "productId")
                  (jsOr (jsGet data "reference") (jsGet data "productReference")))))))
      if jsTruthy sku then some (jsToString sku) else none
    else none)

/-- Model of `srcset.split(',')[0].trim().split(' ')[0]`. -/
def firstSrcsetUrl (s : String) : String :=
  (strSplitOnChar ' ' (strTrim ((strSplitOnChar ',' s).headD ""))).headD ""

/-- The per-element source of the image-collection callback: IMG property
and attribute chain, SOURCE attribute chain, the parent-picture rescue
for an IMG with no source, then the comma-separated srcset trim. -/
def imgSrcOf (el : Elem) : Option String :=
  let src0 : Option String :=
    if el.tag = "IMG" then
      jsOrS (if el.src ≠ "" then some el.src else none)
        (jsOrS (el.attr "data-src")
          (jsOrS (el.attr "data-lazy-src")
            (jsOrS (el.attr "data-original")
              (jsOrS (el.attr "data-srcset")
                (if el.srcset ≠ "" then some (firstSrcsetUrl el.srcset) else none)))))
    else if el.tag = "SOURCE" then
      jsOrS (el.attr "srcset") (jsOrS (el.attr "data-srcset") (el.attr "src"))
    else none
  let src1 : Option String :=
    if !strTruthy src0 && el.tag = "IMG" then
      match el.parentElem with
      | some parent =>
        if parent.tag = "PICTURE" then
          match parent.firstSource with
          | some sourceEl =>
            jsOrS (sourceEl.attr "srcset") (jsOrS (sourceEl.attr "data-srcset") (sourceEl.attr "src"))
          | none => src0
        else src0
      | none => src0
    else src0
  match src1 with
  | some s =>
    if s = "" then none
    else
      let s2 := if strContains s "," then firstSrcsetUrl s else s
      if s2 = "" then none else some s2
  | none => none

/-- The union of the image callback results over every selector in the
list (`allImageUrls`). -/
def collectImages (page : Page) (sels : List String) : List String :=
  sels.flatMap (fun s => (page.queryAll s).filterMap imgSrcOf)

/-- The allowed variant letters of the Zara product-image pattern (every
lowercase letter except `c`). -/
def zaraLetterOk (c : Char) : Bool :=
  ('a' ≤ c && c ≤ 'z') && c ≠ 'c'

/-- Unanchored test for digits, a dash and an allowed variant letter
(the Zara product-image pattern; the trailing `\d*` always matches). -/
def zaraPatternTest : List Char → Bool
  | [] => false
  | c :: rest =>
    (c.isDigit &&
      (match rest with
       | '-' :: l :: _ => zaraLetterOk l
       | _ => false)) || zaraPatternTest rest

/-- Unanchored test for a dot, one of the given extensions, then a
question mark or the end of the string. -/
def extPatternTest (exts : List (List Char)) : List Char → Bool
  | [] => false
  | c :: rest =>
    (c = '.' && exts.any (fun e =>
        e.isPrefixOf rest &&
        (match rest.drop e.length with
         | [] => true
         | '?' :: _ => true
         | _ => false))) || extPatternTest exts rest

/-- The extension set of the Zara image check. -/
def zaraExts : List (List Char) :=
  [['j','p','g'], ['j','p','e','g'], ['p','n','g'], ['w','e','b','p']]

/-- The extension set of the Mango lazy-load image check (adds gif). -/
def mangoExts : List (List Char) :=
  [['j','p','g'], ['j','p','e','g'], ['p','n','g'], ['w','e','b','p'], ['g','i','f']]

/-- The image filter applied to resolved URLs in the selector reader's
main collection pass and in its JSON-in-page fallback (the source
repeats the identical callback at both sites): reject SVGs,
transparent/placeholder images, icons, and for `zara.com` require the
product-image pattern and the image extension. -/
def universalImageFilter (domain : Option String) (url : String) : Bool :=
  let lowerUrl := strLower url
  if strEnds lowerUrl ".svg" then false
  else if strContains lowerUrl "transparent-background" ||
          strContains lowerUrl "transparent.png" ||
          strContains lowerUrl "placeholder" then false
  else if strContains lowerUrl "/icon" ||
          strContains lowerUrl "iconos" ||
          strContains lowerUrl "icon-" then false
  else if domain = some "zara.com" then
    if !zaraPatternTest lowerUrl.toList then false
    else if !extPatternTest zaraExts lowerUrl.toList then false
    else true
  else true

/-- The image filter of the lazy-load pass: the universal rejections, the
Zara checks, and for the Mango domains an image-extension requirement. -/
def lazyImageFilter (domain : Option String) (url : String) : Bool :=
  let lowerUrl := strLower url
  if strEnds lowerUrl ".svg" then false
  else if strContains lowerUrl "transparent-background" ||
          strContains lowerUrl "transparent.png" ||
          strContains lowerUrl "placeholder" then false
  else if strContains lowerUrl "/icon" ||
          strContains lowerUrl "iconos" ||
          strContains lowerUrl "icon-" then false
  else if domain = some "zara.com" then
    if !zaraPatternTest lowerUrl.toList then false
    else if !extPatternTest zaraExts lowerUrl.toList then false
    else true
  else if domain = some "shop.mango.com" || domain = some "mango.com" then
    extPatternTest mangoExts lowerUrl.toList
  else true

/-- The key names matched exactly by `findInProps` in the Next.js
special case of the in-page image search. -/
def imageKeyNames : List String :=
  ["images", "gallery", "productImages", "media", "photos", "pictures"]

/-- The depth-bounded `findInProps` walk (depth 0..4 allowed, so fuel 5). -/
def findInProps : Nat → JSValue → List JSValue
  | 0, _ => []
  | fuel + 1, v =>
    if !jsTruthy v || !jsTypeofObject v then []
    else
      (jsOwnPairs v).flatMap (fun kv =>
        let part1 :=
          if imageKeyNames.contains kv.1 then
            match kv.2 with
            | .vArr xs => xs
            | x =>
              if jsTruthy x && jsTypeofObject x && jsTruthy (jsGet x "images") then
                match jsGet x "images" with
                | .vArr ys => ys
                | y => [y]
              else []
          else []
        let part2 := if jsTypeofObject kv.2 then findInProps fuel kv.2 else []
        part1 ++ part2)

/-- The depth-bounded `findImages` walk keyed on substrings of the
lowercased key (depth 0..3 allowed, so fuel 4). -/
def findImagesRec : Nat → JSValue → List JSValue
  | 0, _ => []
  | fuel + 1, v =>
    if !jsTruthy v || !jsTypeofObject v then []
    else
      (jsOwnPairs v).flatMap (fun kv =>
        let lk := strLower kv.1
        let part1 :=
          if strContains lk "image" || strContains lk "gallery" ||
             strContains lk "photo" || strContains lk "picture" then
            match kv.2 with
            | .vArr xs => xs
            | _ => []
          else []
        let part2 := if jsTypeofObject kv.2 then findImagesRec fuel kv.2 else []
        part1 ++ part2)

/-- The direct image-path alias chain tried on each global before the
recursive search. -/
def dataImagesChain (data : JSValue) : JSValue :=
  jsOr (jsGet data "images")
    (jsOr (jsGet data "productImages")
      (jsOr (jsGet data "gallery")
        (jsOr (jsGetOpt (jsGet data "media") "images")
          (jsOr (jsGetOpt (jsGet data "media") "gallery")
            (jsOr (jsGetOpt (jsGet data "product") "images")
              (jsOr (jsGetOpt (jsGet data "product") "gallery")
                (jsOr (jsGetOpt (jsGet data "detail") "images")
                  (jsOr (jsGet data "photos") (jsGet data "pictures")))))))))

/-- URL extraction from one entry of a found image array: a string is
taken as is; an object is probed through the url/src/size alias chain;
everything else is dropped. -/
def foundImageUrl (img : JSValue) : Option String :=
  match img with
  | .vStr s => if s ≠ "" then some s else none
  | _ =>
    if jsTruthy img && jsTypeofObject img then
      let url := jsOr (jsGet img "url")
        (jsOr (jsGet img "src")
          (jsOr (jsGet img "original")
            (jsOr (jsGet img "medium")
              (jsOr (jsGet img "large")
                (jsOr (jsGet img "high")
                  (jsOr (jsGet img "full")
                    (jsOr (jsGet img "path")
                      (jsOr (jsGet img "imageUrl")
                        (jsOr (jsGet img "image")
                          (jsOr (jsAnd (jsGet img "media") (jsGet (jsGet img "media") "url"))
                            (jsAnd (jsGet img "media") (jsGet (jsGet img "media") "src"))))))))))))
      match url with
      | .vStr s => if s ≠ "" then some s else none
      | _ => none
    else none

/-- The window globals probed by the in-page image search. -/
def imageGlobalNames : List String :=
  ["__INITIAL_STATE__", "__PRELOADED_STATE__", "productData", "product",
   "productImages", "__NEXT_DATA__", "__APOLLO_STATE__", "productInfo"]

/-- The in-page image search: the Next.js props walk pushes raw entries,
each global's alias chain (or recursive search) pushes extracted URL
strings; the result is the deduplicated union, or null when empty. -/
def evalImagesFromGlobals (page : Page) : Option (List JSValue) :=
  let nd := winGet page "__NEXT_DATA__"
  let nextImages :=
    if jsTruthy nd && jsTruthy (jsGet nd "props") then findInProps 5 (jsGet nd "props") else []
  let fromPatterns := (imageGlobalNames.map (winGet page)).flatMap (fun data =>
    if jsTruthy data && jsTypeofObject data then
      let images0 := dataImagesChain data
      let images := if !jsTruthy images0 then JSValue.vArr (findImagesRec 4 data) else images0
      match images with
      | .vArr xs =>
        if xs.length > 0 then (xs.filterMap foundImageUrl).map JSValue.vStr else []
      | _ => []
    else [])
  let foundImages := nextImages ++ fromPatterns
  if foundImages.length > 0 then some (jsSetDedupV foundImages) else none

/-- The per-element source chain of the lazy-load rescan, kept only for
the known Zara/Mango CDN hosts. -/
def lazySrcOf (el : Elem) : Option String :=
  if el.tag = "IMG" then
    let src := jsOrS (if el.src ≠ "" then some el.src else none)
      (jsOrS (el.attr "data-src")
        (jsOrS (el.attr "data-lazy-src")
          (jsOrS (el.attr "data-original")
            (jsOrS (el.attr "data-srcset")
              (jsOrS (el.attr "data-lazy")
                (if el.srcset ≠ "" then some (firstSrcsetUrl el.srcset) else none))))))
    match src with
    | some s =>
      if s ≠ "" && (strContains s "static.zara.net" || strContains s "st.mngbcn.com" ||
                    strContains s "media.mango.com" || strContains s "mango.com") then some s
      else none
    | none => none
  else none

/-- The main image-collection pass: resolve every collected candidate,
filter, deduplicate; empty when no selector matched anything. -/
def selectorImagesMain (page : Page) (domain : Option String) (baseUrl : String)
    (imageSels : List String) : List String :=
  let allImageUrls := collectImages page imageSels
  if allImageUrls.length > 0 then
    jsSetDedup ((allImageUrls.filterMap (fun u => resolveUrl (.vStr u) baseUrl)).filter
      (universalImageFilter domain))
  else []

/-- The JSON-in-page fallback pass over a current image list. -/
def selectorImagesWithJson (page : Page) (domain : Option String) (baseUrl : String)
    (images1 : List String) : List String :=
  if images1.length < 10 || domain = some "shop.mango.com" || domain = some "mango.com" then
    match evalImagesFromGlobals page with
    | some imageData =>
      if imageData.length > 0 then
        jsSetDedup (images1 ++
          ((imageData.filterMap (fun v => resolveUrl v baseUrl)).filter
            (universalImageFilter domain)))
      else images1
    | none => images1
  else images1

/-- The lazy-load rescan pass over a current image list. -/
def selectorImagesWithLazy (page : Page) (domain : Option String) (baseUrl : String)
    (images2 : List String) : List String :=
  if (domain = some "zara.com" && images2.length < 6) ||
     ((domain = some "shop.mango.com" || domain = some "mango.com") && images2.length = 0) then
    let lazyImages := jsSetDedup ((page.queryAll "img").filterMap lazySrcOf)
    if lazyImages.length > 0 then
      jsSetDedup (images2 ++
        ((lazyImages.filterMap (fun u => resolveUrl (.vStr u) baseUrl)).filter
          (lazyImageFilter domain)))
    else images2
  else images2

/-- Embedding of `extractFromSelectors(page, domain, baseUrl)`.  The
scroll and wait calls of the lazy-load pass only trigger rendering and
are modelled as no-ops on the static page model. -/
def extractFromSelectors (page : Page) (domain : Option String) (baseUrl : String) : ExtractResult :=
  let selectors := selectorsForDomain domain
  let title :=
    match selFirstText page selectors.title with
    | some t => normalizeEmpty (.vStr (strTrim t))
    | none => JSValue.vNull
  let description :=
    match selFirstText page selectors.description with
    | some t => normalizeEmpty (.vStr (strTrim t))
    | none => JSValue.vNull
  let priceCur :=
    match selFirstText page selectors.price with
    | some t => (optNumToVal (extractPrice (.vStr t)), optStrToVal (normalizeCurrency (.vStr t)))
    | none => (JSValue.vNull, JSValue.vNull)
  let price := priceCur.1
  let currency0 := priceCur.2
  let currency1 :=
    if !jsTruthy currency0 then
      match selectors.currency with
      | some csels =>
        match currencyLoop page csels with
        | some c => JSValue.vStr c
        | none => currency0
      | none => currency0
    else currency0
  let currency2 :=
    if !jsTruthy currency1 then
      let m := jsOrS (metaOf page "meta[property=\"product:price:currency\"]")
                     (metaOf page "meta[name=\"currency\"]")
      if strTruthy m then optStrToVal (normalizeCurrency (.vStr (m.getD ""))) else currency1
    else currency1
  let currency3 :=
    if !jsTruthy currency2 then
      match parseURL baseUrl with
      | some u =>
        let pathParts := (strSplitOnChar '/' u.pathname).filter (fun p => p ≠ "")
        match pathParts.head? with
        | some first =>
          match countryCurrencyMap.lookup (strLower first) with
          | some c => JSValue.vStr c
          | none => currency2
        | none => currency2
      | none => currency2
    else currency2
  let currency4 :=
    if !jsTruthy currency3 then
      let cj := evalCurrencyFromGlobals page
      if jsTruthy cj then optStrToVal (normalizeCurrency cj) else currency3
    else currency3
  let sku0 :=
    match skuLoop page selectors.sku with
    | some s => normalizeEmpty (.vStr s)
    | none => JSValue.vNull
  let sku1 :=
    if !jsTruthy sku0 then
      match urlSku baseUrl with
      | some s => JSValue.vStr s
      | none => sku0
    else sku0
  let sku2 :=
    if !jsTruthy sku1 then
      let m := jsOrS (metaOf page "meta[property=\"product:sku\"]")
                 (jsOrS (metaOf page "meta[name=\"product:sku\"]")
                        (metaOf page "meta[property=\"product:id\"]"))
      if strTruthy m then normalizeEmpty (.vStr (strTrim (m.getD ""))) else sku1
    else sku1
  let sku3 :=
    if !jsTruthy sku2 then
      match evalSkuFromGlobals page with
      | some s => normalizeEmpty (.vStr (strTrim s))
      | none => sku2
    else sku2
  let sku4 :=
    if !jsTruthy sku3 then
      match page.queryOne "[data-product-id], [data-sku], [data-product-reference], [data-product-code]" with
      | some el =>
        let s := jsOrS (el.attr "data-product-id")
                   (jsOrS (el.attr "data-sku")
                     (jsOrS (el.attr "data-product-reference") (el.attr "data-product-code")))
        if strTruthy s then normalizeEmpty (.vStr (strTrim (s.getD ""))) else sku3
      | none => sku3
    else sku3
  let images3 :=
    selectorImagesWithLazy page domain baseUrl
      (selectorImagesWithJson page domain baseUrl
        (selectorImagesMain page domain baseUrl selectors.images))
  { title := title, description := description, price := price,
    currency := currency4, sku := sku4, images := images3 }

/-- The output record of `extractProductData` (the `raw` sub-object is
flattened into `rawJsonLd` and `detectedApi`). -/
structure ProductData where
  url : String
  domain : Option String
  title : JSValue
  description : JSValue
  price : JSValue
  currency : JSValue
  sku : JSValue
  images : List String
  rawJsonLd : JSValue
  detectedApi : Option String
deriving Repr

/-- The null-preserving per-field merge the coordinator applies to the
script-state and selector reader outputs (the two inline blocks are
textually identical in the source). -/
def mergeData (result : ProductData) (d : ExtractResult) : ProductData :=
  { result with
    title := if !jsTruthy result.title && jsTruthy d.title then d.title else result.title,
    description := if !jsTruthy result.description && jsTruthy d.description then d.description else result.description,
    price := if !jsTruthy result.price && !(d.price matches .vNull) then d.price else result.price,
    currency := if !jsTruthy result.currency && jsTruthy d.currency then d.currency else result.currency,
    sku := if !jsTruthy result.sku && jsTruthy d.sku then d.sku else result.sku,
    images := if result.images.length = 0 && d.images.length > 0 then d.images else result.images }

/-- Set `raw.detectedApi` only while it is still null. -/
def setDetected (result : ProductData) (name : String) : ProductData :=
  if result.detectedApi = none then { result with detectedApi := some name } else result

/-- Embedding of `extractProductData(page, url)` instrumented with two
flags recording whether the script-state reader
(`extractEmbeddedJson`) and the selector reader
(`extractFromSelectors`) were invoked.  The result is `Except` because
`extractFromEmbeddedJson` can throw and the coordinator does not catch. -/
def extractProductDataT (page : Page) (url : String) :
    Except String (ProductData × Bool × Bool) := do
  let domain := extractDomain url
  let r0 : ProductData :=
    { url := url, domain := domain, title := .vNull, description := .vNull,
      price := .vNull, currency := .vNull, sku := .vNull, images := [],
      rawJsonLd := .vNull, detectedApi := none }
  let jsonLd := extractJsonLd page
  let r1 :=
    if jsTruthy jsonLd then
      let jsonLdData := extractFromJsonLd jsonLd url
      { r0 with
        rawJsonLd := jsonLd, title := jsonLdData.title,
        description := jsonLdData.description, price := jsonLdData.price,
        currency := jsonLdData.currency, sku := jsonLdData.sku,
        images := jsonLdData.images, detectedApi := some "json-ld" }
    else r0
  let step2 : Except String (ProductData × Bool) :=
    if !jsTruthy r1.title || !jsTruthy r1.price then do
      let embeddedJson := extractEmbeddedJson page
      if jsTruthy embeddedJson then do
        let embeddedData ← extractFromEmbeddedJson embeddedJson url
        pure (setDetected (mergeData r1 embeddedData) "embedded-json", true)
      else pure (r1, true)
    else pure (r1, false)
  let (r2, embeddedInvoked) ← step2
  let selRes :=
    if !jsTruthy r2.title || !jsTruthy r2.price || r2.images.length = 0 then
      let selectorData := extractFromSelectors page domain url
      (setDetected (mergeData r2 selectorData) "selectors", true)
    else (r2, false)
  let r3 := selRes.1
  let selectorsInvoked := selRes.2
  let r4 :=
    if r3.images.length > 0 then { r3 with images := getLargestImages r3.images } else r3
  pure (r4, embeddedInvoked, selectorsInvoked)

/-- Embedding of `extractProductData(page, url)`. -/
def extractProductData (page : Page) (url : String) : Except String ProductData :=
  (extractProductDataT page url).map (fun r => r.1)

/-!
Concrete pages and values used to settle the claims, and the spec-side
selection function used for the refinement statement about the
structured-data reader.
-/

/-- Test for null or undefined. -/
def jsIsNullish : JSValue → Bool
  | .vNull => true
  | .vUndefined => true
  | _ => false

/-- A `@graph` field that is absent/falsy, or an array with no nullish
entries — the shapes on which the graph search cannot throw. -/
def graphSafe (b : JSValue) : Bool :=
  !jsTruthy (jsGet b "@graph") ||
  (match jsGet b "@graph" with
   | .vArr items => items.all (fun it => !jsIsNullish it)
   | _ => false)

/-- Spec-side description of the selection the code actually performs,
written independently of the source's control flow: scan the blocks in
order and, per block, take a direct `@type` match first, else the first
match inside that block's `@graph` array. -/
def interleavedSelect (blocks : List JSValue) : Option JSValue :=
  blocks.findSome? (fun b =>
    if jsIsProductType (jsGet b "@type") then some b
    else
      match jsGet b "@graph" with
      | .vArr items => items.find? (fun it => jsIsProductType (jsGet it "@type"))
      | _ => none)

/-- A page with no structured data, no globals and an empty DOM. -/
def emptyPage : Page :=
  { jsonLdScripts := [], globals := [], queryOne := fun _ => none,
    queryAll := fun _ => [], jsonParse := fun _ => none }

/-- The structured-data block of the spec's end-to-end example, carrying
a name so the critical fields are complete. -/
def exampleBlock : JSValue :=
  .vObj [("@type", .vStr "Product"), ("name", .vStr "T"),
    ("offers", .vObj [("price", .vStr "29.99"), ("priceCurrency", .vStr "EUR")]),
    ("image", .vArr [.vStr "a.jpg", .vStr "b.jpg"])]

/-- A page exposing exactly `exampleBlock`. -/
def examplePage : Page := { emptyPage with jsonLdScripts := [exampleBlock] }

/-- The spec's end-to-end example block exactly as written: offers and
images but no name. -/
def exampleBlockNoName : JSValue :=
  .vObj [("@type", .vStr "Product"),
    ("offers", .vObj [("price", .vStr "29.99"), ("priceCurrency", .vStr "EUR")]),
    ("image", .vArr [.vStr "a.jpg", .vStr "b.jpg"])]

/-- A page exposing exactly `exampleBlockNoName`. -/
def examplePageNoName : Page := { emptyPage with jsonLdScripts := [exampleBlockNoName] }

/-- A page whose Product block carries no fields at all while the
script state supplies title and price. -/
def provenancePage : Page :=
  { emptyPage with
    jsonLdScripts := [.vObj [("@type", .vStr "Product")]],
    globals := [("productData", .vObj [("product",
      .vObj [("name", .vStr "X"), ("price", .vNum (.fin 5))])])] }

/-- A page whose Product block supplies title, price and a placeholder
SVG image. -/
def svgImagePage : Page :=
  { emptyPage with
    jsonLdScripts := [.vObj [("@type", .vStr "Product"), ("name", .vStr "T"),
      ("offers", .vObj [("price", .vStr "5")]),
      ("image", .vStr "https://a.com/placeholder.svg")]] }

/-- A page whose Product block lists the same image twice. -/
def dupImagePage : Page :=
  { emptyPage with
    jsonLdScripts := [.vObj [("@type", .vStr "Product"), ("name", .vStr "T"),
      ("offers", .vObj [("price", .vStr "5")]),
      ("image", .vArr [.vStr "a.jpg", .vStr "a.jpg"])]] }

/-- A Product block nested in the `@graph` of a first script. -/
def graphNestedProduct : JSValue :=
  .vObj [("@type", .vStr "Product"), ("name", .vStr "first")]

/-- A directly matching Product block in a later script. -/
def directProduct : JSValue :=
  .vObj [("@type", .vStr "Product"), ("name", .vStr "second")]

/-- A page whose first script only carries the graph-nested Product and
whose second script is a direct Product block. -/
def graphOrderPage : Page :=
  { emptyPage with jsonLdScripts := [.vObj [("@graph", .vArr [graphNestedProduct])], directProduct] }

/-- An image element for the selector-reader witness page. -/
def witnessImgElem : Elem :=
  .mk "IMG" [] none "https://a.com/x.jpg" "" none none

/-- A page whose generic image selector matches one plain product image. -/
def selectorImagePage : Page :=
  { emptyPage with
    queryAll := fun s => if s = ".product-image img" then [witnessImgElem] else [] }

/-- A partial result whose price is the non-null number 0 (as a
structured-data offer price of 0 produces). -/
def zeroPriceResult : ProductData :=
  { url := "https://a.com/p", domain := some "a.com", title := .vStr "T",
    description := .vNull, price := .vNum (.fin 0), currency := .vNull,
    sku := .vNull, images := [], rawJsonLd := .vNull, detectedApi := some "json-ld" }

/-- A reader output offering price 5 for the merge counterexample. -/
def fivePriceData : ExtractResult :=
  { emptyExtract with price := .vNum (.fin 5) }

/-- A fully populated partial result for the merge witness. -/
def populatedResult : ProductData :=
  { url := "https://a.com/p", domain := some "a.com", title := .vStr "T",
    description := .vStr "D", price := .vNum (.fin 7), currency := .vStr "EUR",
    sku := .vStr "S", images := ["https://a.com/i.jpg"], rawJsonLd := .vNull,
    detectedApi := some "json-ld" }

/-- A competing reader output for the merge witness. -/
def competingData : ExtractResult :=
  { title := .vStr "T2", description := .vStr "D2", price := .vNum (.fin 9),
    currency := .vStr "USD", sku := .vStr "S2", images := ["https://a.com/j.jpg"] }

/-!
Helper lemmas shared by the claim theorems.
-/

/-- Null is falsy. -/
theorem jsTruthy_vNull : jsTruthy .vNull = false := rfl

/-- The detected-API field after `setDetected` is the old value when set,
the new name otherwise. -/
theorem setDetected_api (r : ProductData) (n : String) :
    (setDetected r n).detectedApi = some (r.detectedApi.getD n) := by
  unfold setDetected
  cases hr : r.detectedApi <;> simp [hr]

/-- The merge never touches the detected-API field. -/
theorem mergeData_api (r : ProductData) (d : ExtractResult) :
    (mergeData r d).detectedApi = r.detectedApi := rfl

/-- Members of the deduplicated list come from the input. -/
theorem jsSetDedupAux_subset {x : String} : ∀ (xs : List String) (seen : List String),
    x ∈ jsSetDedupAux seen xs → x ∈ xs := by
  intro xs
  induction xs with
  | nil => intro seen h; simp [jsSetDedupAux] at h
  | cons y ys ih =>
    intro seen h
    cases hc : seen.contains y <;> simp only [jsSetDedupAux, hc] at h
    · simp only [Bool.false_eq_true, if_false, List.mem_cons] at h
      rcases h with rfl | h
      · exact List.mem_cons_self _ _
      · exact List.mem_cons_of_mem _ (ih _ h)
    · simp only [if_true] at h
      exact List.mem_cons_of_mem _ (ih _ h)

/-- The deduplicated list has no duplicates and avoids the seen set. -/
theorem jsSetDedupAux_nodup : ∀ (xs : List String) (seen : List String),
    (jsSetDedupAux seen xs).Nodup ∧ ∀ y ∈ jsSetDedupAux seen xs, seen.contains y = false := by
  intro xs
  induction xs with
  | nil => intro seen; simp [jsSetDedupAux]
  | cons y ys ih =>
    intro seen
    cases hc : seen.contains y <;> simp only [jsSetDedupAux, hc]
    · simp only [Bool.false_eq_true, if_false]
      obtain ⟨hnd, hout⟩ := ih (y :: seen)
      refine ⟨List.nodup_cons.mpr ⟨fun hmem => ?_, hnd⟩, ?_⟩
      · have h2 := hout y hmem
        simp [List.contains_cons] at h2
      · intro z hz
        rcases List.mem_cons.mp hz with rfl | hz'
        · exact hc
        · have h2 := hout z hz'
          simp only [List.contains_cons, Bool.or_eq_false_iff] at h2
          exact h2.2
    · simp only [if_true]
      exact ih seen

/-- Set dedup only keeps input members. -/
theorem jsSetDedup_subset {x : String} {xs : List String} (h : x ∈ jsSetDedup xs) : x ∈ xs :=
  jsSetDedupAux_subset xs [] h

/-- Set dedup produces a duplicate-free list. -/
theorem jsSetDedup_nodup (xs : List String) : (jsSetDedup xs).Nodup :=
  (jsSetDedupAux_nodup xs []).1

/-- A URL passing the main image filter neither ends in `.svg` nor
contains `placeholder`. -/
theorem universalImageFilter_facts {domain : Option String} {u : String}
    (h : universalImageFilter domain u = true) :
    strEnds (strLower u) ".svg" = false ∧ strContains (strLower u) "placeholder" = false := by
  cases hsvg : strEnds (strLower u) ".svg" with
  | false =>
    cases hph : strContains (strLower u) "placeholder" with
    | false => exact ⟨rfl, rfl⟩
    | true => simp [universalImageFilter, hsvg, hph] at h
  | true => simp [universalImageFilter, hsvg] at h

/-- A URL passing the lazy-load image filter neither ends in `.svg` nor
contains `placeholder`. -/
theorem lazyImageFilter_facts {domain : Option String} {u : String}
    (h : lazyImageFilter domain u = true) :
    strEnds (strLower u) ".svg" = false ∧ strContains (strLower u) "placeholder" = false := by
  cases hsvg : strEnds (strLower u) ".svg" with
  | false =>
    cases hph : strContains (strLower u) "placeholder" with
    | false => exact ⟨rfl, rfl⟩
    | true => simp [lazyImageFilter, hsvg, hph] at h
  | true => simp [lazyImageFilter, hsvg] at h

/-- Every member of the main image pass passed the main filter. -/
theorem mem_selectorImagesMain {page : Page} {domain : Option String} {baseUrl : String}
    {sels : List String} {u : String} (h : u ∈ selectorImagesMain page domain baseUrl sels) :
    universalImageFilter domain u = true := by
  simp only [selectorImagesMain] at h
  split at h
  · exact (List.mem_filter.mp (jsSetDedup_subset h)).2
  · simp at h

/-- Members after the JSON fallback pass were already present or passed
the main filter. -/
theorem mem_selectorImagesWithJson {page : Page} {domain : Option String} {baseUrl : String}
    {i1 : List String} {u : String} (h : u ∈ selectorImagesWithJson page domain baseUrl i1) :
    u ∈ i1 ∨ universalImageFilter domain u = true := by
  simp only [selectorImagesWithJson] at h
  split at h
  · split at h
    · split at h
      · rcases List.mem_append.mp (jsSetDedup_subset h) with h' | h'
        · exact Or.inl h'
        · exact Or.inr (List.mem_filter.mp h').2
      · exact Or.inl h
    · exact Or.inl h
  · exact Or.inl h

/-- Members after the lazy-load pass were already present or passed the
lazy filter. -/
theorem mem_selectorImagesWithLazy {page : Page} {domain : Option String} {baseUrl : String}
    {i2 : List String} {u : String} (h : u ∈ selectorImagesWithLazy page domain baseUrl i2) :
    u ∈ i2 ∨ lazyImageFilter domain u = true := by
  simp only [selectorImagesWithLazy] at h
  split at h
  · split at h
    · rcases List.mem_append.mp (jsSetDedup_subset h) with h' | h'
      · exact Or.inl h'
      · exact Or.inr (List.mem_filter.mp h').2
    · exact Or.inl h
  · exact Or.inl h

/-- The main image pass is duplicate-free. -/
theorem nodup_selectorImagesMain (page : Page) (domain : Option String) (baseUrl : String)
    (sels : List String) : (selectorImagesMain page domain baseUrl sels).Nodup := by
  simp only [selectorImagesMain]
  split
  · exact jsSetDedup_nodup _
  · exact List.nodup_nil

/-- The JSON fallback pass preserves freedom from duplicates. -/
theorem nodup_selectorImagesWithJson {page : Page} {domain : Option String} {baseUrl : String}
    {i1 : List String} (h : i1.Nodup) : (selectorImagesWithJson page domain baseUrl i1).Nodup := by
  simp only [selectorImagesWithJson]
  split
  · split
    · split
      · exact jsSetDedup_nodup _
      · exact h
    · exact h
  · exact h

/-- The lazy-load pass preserves freedom from duplicates. -/
theorem nodup_selectorImagesWithLazy {page : Page} {domain : Option String} {baseUrl : String}
    {i2 : List String} (h : i2.Nodup) : (selectorImagesWithLazy page domain baseUrl i2).Nodup := by
  simp only [selectorImagesWithLazy]
  split
  · split
    · exact jsSetDedup_nodup _
    · exact h
  · exact h

/-- The images of the selector reader are exactly the three-pass
pipeline. -/
theorem extractFromSelectors_images (page : Page) (domain : Option String) (baseUrl : String) :
    (extractFromSelectors page domain baseUrl).images =
      selectorImagesWithLazy page domain baseUrl
        (selectorImagesWithJson page domain baseUrl
          (selectorImagesMain page domain baseUrl (selectorsForDomain domain).images)) := rfl

/-- Property access on a non-nullish value cannot throw. -/
theorem jsGetE_ok {v : JSValue} (p : String) (h : jsIsNullish v = false) :
    jsGetE v p = .ok (jsGet v p) := by
  cases v <;> simp_all [jsIsNullish, jsGetE]

/-- Over a graph with no nullish entries the throwing find agrees with
the pure find. -/
theorem findProductInGraph_eq {items : List JSValue}
    (h : ∀ it ∈ items, jsIsNullish it = false) :
    findProductInGraph items = .ok (items.find? (fun it => jsIsProductType (jsGet it "@type"))) := by
  induction items with
  | nil => rfl
  | cons it rest ih =>
    have hit := h it (List.mem_cons_self _ _)
    simp only [findProductInGraph, jsGetE_ok _ hit, List.find?]
    cases hp : jsIsProductType (jsGet it "@type") with
    | true => simp [bind, Except.bind, hp, pure, Except.pure]
    | false =>
      simp only [bind, Except.bind, hp, Bool.false_eq_true, if_false]
      exact ih (fun x hx => h x (List.mem_cons_of_mem _ hx))

/-- Over graph-safe blocks the scan of the structured-data reader equals
the interleaved selection function. -/
theorem extractJsonLdLoop_eq : ∀ (bs : List JSValue), bs.all graphSafe = true →
    extractJsonLdLoop bs = .ok ((interleavedSelect bs).getD .vNull) := by
  intro bs
  induction bs with
  | nil => intro _; rfl
  | cons b rest ih =>
    intro hall
    simp only [List.all_cons, Bool.and_eq_true] at hall
    obtain ⟨hb, hrest⟩ := hall
    simp only [extractJsonLdLoop, interleavedSelect, List.findSome?]
    cases hd : jsIsProductType (jsGet b "@type") with
    | true => simp [hd]
    | false =>
      simp only [hd, Bool.false_eq_true, if_false]
      cases hg : jsTruthy (jsGet b "@graph") with
      | false =>
        have hnotarr : ∀ items, jsGet b "@graph" ≠ .vArr items := by
          intro items he
          rw [he] at hg
          simp [jsTruthy] at hg
        cases hga : jsGet b "@graph" <;> simp only [hga] at hg ⊢
        case vArr items => exact absurd hga (hnotarr items)
        all_goals
          simp only [ih hrest, interleavedSelect]
          rfl
      | true =>
        have hsafe := hb
        unfold graphSafe at hsafe
        rw [hg] at hsafe
        simp only [Bool.not_true, Bool.false_or] at hsafe
        cases hga : jsGet b "@graph" <;> rw [hga] at hsafe <;> try simp at hsafe
        case vArr items =>
          have hnn : ∀ it ∈ items, jsIsNullish it = false := hsafe
          cases hf : items.find? (fun it => jsIsProductType (jsGet it "@type")) with
          | some p => simp [findProductInGraph_eq hnn, bind, Except.bind, pure, Except.pure, hf]
          | none =>
            simp [findProductInGraph_eq hnn, bind, Except.bind, pure, Except.pure, hf, ih hrest,
              interleavedSelect]

/-- A parse that is not NaN is non-negative (or infinite upward). -/
theorem parseFloatRun_not_nan_nonneg {cs : List Char} {n : JSNum}
    (h : parseFloatRun cs = n) (hn : n.isNaN = false) : n.nonNeg := by
  simp only [parseFloatRun] at h
  split at h
  · subst h; simp [JSNum.isNaN] at hn
  · split at h <;> subst h
    · trivial
    · show (0:ℚ) ≤ _
      rw [Rat.mkRat_eq_div]
      positivity

/-!
Claim theorems.
-/

/-- Claim C1 (corrected, counterexample).  The claim says provenance
names the first reader that contributed title or price.  On a page whose
JSON-LD Product block carries no fields, the structured-data reader
contributes neither title nor price (both null), the script-state reader
supplies both, and the source-invocation flag shows it ran — yet the
final record's provenance (`raw.detectedApi`) is `json-ld`, the code
name for the structured-data reader. -/
theorem C1_counterexample :
    ((extractProductDataT provenancePage "https://a.com/b/c").map
        (fun x => (x.1.detectedApi, x.1.title, x.1.price, x.2.1))
      = .ok (some "json-ld", .vStr "X", .vNum (.fin 5), true))
    ∧ (extractFromJsonLd (extractJsonLd provenancePage) "https://a.com/b/c").title = .vNull
    ∧ (extractFromJsonLd (extractJsonLd provenancePage) "https://a.com/b/c").price = .vNull :=
  ⟨rfl, rfl, rfl⟩

/-- Claim C1 (corrected, amended theorem).  The provenance of every
successful extraction is drawn from the three reader names and is fixed
by which reader's data source was found first, not by which reader
contributed title or price: it is `json-ld` (structured-data) whenever a
Product block was found, else `embedded-json` (script-state) whenever a
state object was found, else `selectors`; later readers never change a
provenance that is already set. -/
theorem C1_amended_provenance (page : Page) (url : String) (r : ProductData) (e s : Bool)
    (h : extractProductDataT page url = .ok (r, e, s)) :
    r.detectedApi = some (if jsTruthy (extractJsonLd page) then "json-ld"
      else if jsTruthy (extractEmbeddedJson page) then "embedded-json" else "selectors") := by
  unfold extractProductDataT at h
  cases hj : jsTruthy (extractJsonLd page) <;> simp only [hj] at h ⊢
  case false =>
    simp only [Bool.false_eq_true, if_false, jsTruthy_vNull, Bool.not_false, Bool.true_or, if_true] at h ⊢
    cases he : jsTruthy (extractEmbeddedJson page) <;> simp only [he] at h ⊢
    case false =>
      simp only [Bool.false_eq_true, if_false, if_true, bind, Except.bind, pure, Except.pure,
        Except.ok.injEq, Prod.mk.injEq] at h
      obtain ⟨hr, -, -⟩ := h
      subst hr
      simp only [jsTruthy_vNull, Bool.not_false, Bool.true_or, if_true]
      split <;> simp [setDetected_api, mergeData_api]
    case true =>
      simp only [if_true] at h
      cases hd : extractFromEmbeddedJson (extractEmbeddedJson page) url with
      | error m => simp [hd, bind, Except.bind] at h
      | ok d =>
        simp only [hd, bind, Except.bind, pure, Except.pure, Except.ok.injEq, Prod.mk.injEq] at h
        obtain ⟨hr, -, -⟩ := h
        subst hr
        split <;> split <;> simp [setDetected_api, mergeData_api]
  case true =>
    simp only [if_true] at h
    split at h
    · cases he : jsTruthy (extractEmbeddedJson page) <;> simp only [he] at h
      case false =>
        simp only [Bool.false_eq_true, if_false, bind, Except.bind, pure, Except.pure,
          Except.ok.injEq, Prod.mk.injEq] at h
        obtain ⟨hr, -, -⟩ := h
        subst hr
        split <;> split <;> simp [setDetected_api, mergeData_api]
      case true =>
        simp only [if_true] at h
        cases hd : extractFromEmbeddedJson (extractEmbeddedJson page) url with
        | error m => simp [hd, bind, Except.bind] at h
        | ok d =>
          simp only [hd, bind, Except.bind, pure, Except.pure, Except.ok.injEq, Prod.mk.injEq] at h
          obtain ⟨hr, -, -⟩ := h
          subst hr
          split <;> split <;> simp [setDetected_api, mergeData_api]
    · simp only [bind, Except.bind, pure, Except.pure, Except.ok.injEq, Prod.mk.injEq] at h
      obtain ⟨hr, -, -⟩ := h
      subst hr
      split <;> split <;> simp [setDetected_api, mergeData_api]

/-- Claim C1 witness: the amended theorem applied to the empty page,
whose extraction succeeds with provenance `selectors`. -/
theorem C1_witness :
    (({ url := "https://a.com/b/c", domain := some "a.com", title := .vNull,
        description := .vNull, price := .vNull, currency := .vNull, sku := .vNull,
        images := [], rawJsonLd := .vNull, detectedApi := some "selectors" } : ProductData).detectedApi)
      = some (if jsTruthy (extractJsonLd emptyPage) then "json-ld"
          else if jsTruthy (extractEmbeddedJson emptyPage) then "embedded-json" else "selectors") :=
  C1_amended_provenance emptyPage "https://a.com/b/c" _ true true rfl

/-- Claim C2 (corrected, counterexample).  The claim says an image URL
ending in `.svg` or containing `placeholder` is excluded regardless of
which reader produced it; but the structured-data reader applies no such
filter, and a placeholder SVG it reports survives into the final
record. -/
theorem C2_counterexample :
    ((extractProductDataT svgImagePage "https://a.com/b/c").map (fun x => x.1.images)
      = .ok ["https://a.com/placeholder.svg"])
    ∧ strEnds (strLower "https://a.com/placeholder.svg") ".svg" = true
    ∧ strContains (strLower "https://a.com/placeholder.svg") "placeholder" = true :=
  ⟨rfl, by decide, by decide⟩

/-- Claim C2 (corrected, amended theorem).  The `.svg`/`placeholder`
exclusion holds for the selector-based reader only: no URL in that
reader's image output ends in `.svg` or contains `placeholder`.  Images
from the structured-data and script-state readers are not filtered. -/
theorem C2_amended_selector_filter (page : Page) (domain : Option String) (baseUrl : String)
    (u : String) (h : u ∈ (extractFromSelectors page domain baseUrl).images) :
    strEnds (strLower u) ".svg" = false ∧ strContains (strLower u) "placeholder" = false := by
  rw [extractFromSelectors_images] at h
  rcases mem_selectorImagesWithLazy h with h2 | hf
  · rcases mem_selectorImagesWithJson h2 with h1 | hf
    · exact universalImageFilter_facts (mem_selectorImagesMain h1)
    · exact universalImageFilter_facts hf
  · exact lazyImageFilter_facts hf

/-- Claim C2 witness: the amended theorem applied to a page whose
generic image selector yields one plain JPEG. -/
theorem C2_witness :
    strEnds (strLower "https://a.com/x.jpg") ".svg" = false ∧
    strContains (strLower "https://a.com/x.jpg") "placeholder" = false :=
  C2_amended_selector_filter selectorImagePage none "https://a.com/p" "https://a.com/x.jpg" (by decide)

/-- Claim C3 (corrected, counterexample).  The claim says `extractPrice`
never returns a negative number, but a negative numeric input is
returned as is. -/
theorem C3_counterexample :
    extractPrice (.vNum (.fin (-1))) = some (.fin (-1)) ∧ ¬ (JSNum.fin (-1)).nonNeg :=
  ⟨rfl, by decide⟩

/-- Claim C3 (corrected, amended theorem).  `extractPrice` never returns
NaN or a string: any returned number is not NaN, and for string inputs
it is additionally non-negative (possibly infinite for overflowing digit
runs).  Number inputs — including negative or infinite ones — pass
through unchanged, so non-negativity and finiteness do not hold for
them. -/
theorem C3_amended_extractPrice (v : JSValue) (n : JSNum) (h : extractPrice v = some n) :
    n.isNaN = false ∧ (∀ s, v = .vStr s → n.nonNeg) := by
  cases v with
  | vNum m =>
    simp only [extractPrice] at h
    split at h
    · exact absurd h (by simp)
    · next hm =>
      rw [Option.some.injEq] at h
      subst h
      refine ⟨by simpa using hm, ?_⟩
      intro s hs
      exact absurd hs (by simp)
  | vStr s =>
    simp only [extractPrice] at h
    split at h
    · exact absurd h (by simp)
    · next run heq =>
      split at h
      · exact absurd h (by simp)
      · next hnan =>
        rw [Option.some.injEq] at h
        subst h
        refine ⟨by simpa using hnan, ?_⟩
        intro s' _
        exact parseFloatRun_not_nan_nonneg rfl (by simpa using hnan)
  | vNull => simp [extractPrice] at h
  | vUndefined => simp [extractPrice] at h
  | vBool b => simp [extractPrice] at h
  | vArr xs => simp [extractPrice] at h
  | vObj fs => simp [extractPrice] at h

/-- Claim C3 witness: the amended theorem at the string input 29.99. -/
theorem C3_witness :
    (JSNum.fin (mkRat 2999 100)).isNaN = false ∧
    (∀ s, JSValue.vStr "29.99" = .vStr s → (JSNum.fin (mkRat 2999 100)).nonNeg) :=
  C3_amended_extractPrice (.vStr "29.99") (.fin (mkRat 2999 100)) rfl

/-- Claim C4 (corrected, counterexample).  The claim says that for a
page whose Product block carries the example offer and images, neither
the script-state nor the selector reader is invoked; but the example
block carries no name, so title stays null and both later readers do
run (both invocation flags are true). -/
theorem C4_counterexample :
    (extractProductDataT examplePageNoName "https://a.com/b/c").map (fun x => (x.2.1, x.2.2))
      = .ok (true, true) := rfl

/-- Claim C4 (corrected, amended theorem).  When the block additionally
carries a name, the coordinator produces price 29.99, currency EUR, the
two images resolved against the page URL, provenance `json-ld`
(structured-data), and neither later reader is invoked — for any page
exposing exactly that block, whatever its DOM and globals. -/
theorem C4_amended_example (page : Page) (h : page.jsonLdScripts = [exampleBlock]) :
    extractProductDataT page "https://a.com/b/c" =
      .ok ({ url := "https://a.com/b/c", domain := some "a.com",
             title := .vStr "T", description := .vNull,
             price := .vNum (.fin (mkRat 2999 100)), currency := .vStr "EUR",
             sku := .vNull,
             images := ["https://a.com/b/a.jpg", "https://a.com/b/b.jpg"],
             rawJsonLd := exampleBlock, detectedApi := some "json-ld" }, false, false) := by
  unfold extractProductDataT extractJsonLd
  rw [h]
  rfl

/-- Claim C4 witness: the amended theorem at the concrete example
page. -/
theorem C4_witness :
    extractProductDataT examplePage "https://a.com/b/c" =
      .ok ({ url := "https://a.com/b/c", domain := some "a.com",
             title := .vStr "T", description := .vNull,
             price := .vNum (.fin (mkRat 2999 100)), currency := .vStr "EUR",
             sku := .vNull,
             images := ["https://a.com/b/a.jpg", "https://a.com/b/b.jpg"],
             rawJsonLd := exampleBlock, detectedApi := some "json-ld" }, false, false) :=
  C4_amended_example examplePage rfl

/-- Claim C5 (corrected, counterexample).  The claim says the final
images sequence never contains duplicates, but a Product block listing
the same image twice yields a final record whose images list holds the
same URL twice. -/
theorem C5_counterexample :
    ((extractProductDataT dupImagePage "https://a.com/b/c").map (fun x => x.1.images)
      = .ok ["https://a.com/b/a.jpg", "https://a.com/b/a.jpg"])
    ∧ ¬ (["https://a.com/b/a.jpg", "https://a.com/b/a.jpg"] : List String).Nodup :=
  ⟨rfl, by decide⟩

/-- Claim C5 (corrected, amended theorem).  Only the selector-based
reader deduplicates: its image output never contains a duplicate URL,
for every page, domain and base URL.  Image lists coming from the
structured-data and script-state readers are not deduplicated. -/
theorem C5_amended_selector_nodup (page : Page) (domain : Option String) (baseUrl : String) :
    ((extractFromSelectors page domain baseUrl).images).Nodup := by
  rw [extractFromSelectors_images]
  exact nodup_selectorImagesWithLazy (nodup_selectorImagesWithJson (nodup_selectorImagesMain _ _ _ _))

/-- Claim C6 (corrected, counterexample).  The claim says a non-null
field is never overwritten by the merge, but the merge tests JS
truthiness, and a price of 0 — non-null — is overwritten by a later
reader's 5. -/
theorem C6_counterexample :
    (mergeData zeroPriceResult fivePriceData).price = .vNum (.fin 5)
    ∧ zeroPriceResult.price = .vNum (.fin 0)
    ∧ zeroPriceResult.price ≠ .vNull :=
  ⟨rfl, rfl, fun hh => JSValue.noConfusion hh⟩

/-- Claim C6 (corrected, amended theorem).  The merge is idempotent:
merging the same reader output twice equals merging it once.  A field
that is truthy (non-null and, for price, non-zero and non-NaN; for
strings non-empty) is never overwritten, and a non-empty images list is
never replaced; but a falsy non-null value such as price 0 or an empty
string can be overwritten. -/
theorem C6_amended_merge (r : ProductData) (d : ExtractResult) :
    mergeData (mergeData r d) d = mergeData r d ∧
    (jsTruthy r.title = true → (mergeData r d).title = r.title) ∧
    (jsTruthy r.description = true → (mergeData r d).description = r.description) ∧
    (jsTruthy r.price = true → (mergeData r d).price = r.price) ∧
    (jsTruthy r.currency = true → (mergeData r d).currency = r.currency) ∧
    (jsTruthy r.sku = true → (mergeData r d).sku = r.sku) ∧
    (r.images ≠ [] → (mergeData r d).images = r.images) := by
  refine ⟨?_, ?_, ?_, ?_, ?_, ?_, ?_⟩
  · cases r with
    | mk url domain title description price currency sku images rawJsonLd detectedApi =>
      simp only [mergeData, ProductData.mk.injEq, true_and, and_true]
      repeat' apply And.intro
      all_goals split_ifs <;> simp_all
  · intro h; simp [mergeData, h]
  · intro h; simp [mergeData, h]
  · intro h; simp [mergeData, h]
  · intro h; simp [mergeData, h]
  · intro h; simp [mergeData, h]
  · intro h
    simp only [mergeData]
    rw [if_neg]
    simp [List.length_eq_zero, h]

/-- Claim C6 witness: the amended theorem at a fully populated record
and a competing reader output; every field survives the merge and the
double merge equals the single one. -/
theorem C6_witness :
    mergeData (mergeData populatedResult competingData) competingData
        = mergeData populatedResult competingData
    ∧ (mergeData populatedResult competingData).title = populatedResult.title
    ∧ (mergeData populatedResult competingData).description = populatedResult.description
    ∧ (mergeData populatedResult competingData).price = populatedResult.price
    ∧ (mergeData populatedResult competingData).currency = populatedResult.currency
    ∧ (mergeData populatedResult competingData).sku = populatedResult.sku
    ∧ (mergeData populatedResult competingData).images = populatedResult.images :=
  ⟨(C6_amended_merge populatedResult competingData).1,
   (C6_amended_merge populatedResult competingData).2.1 rfl,
   (C6_amended_merge populatedResult competingData).2.2.1 rfl,
   (C6_amended_merge populatedResult competingData).2.2.2.1 (by decide),
   (C6_amended_merge populatedResult competingData).2.2.2.2.1 rfl,
   (C6_amended_merge populatedResult competingData).2.2.2.2.2.1 rfl,
   (C6_amended_merge populatedResult competingData).2.2.2.2.2.2 (by decide)⟩

/-- Claim C7 (corrected, counterexample).  The claim says the `@graph`
arrays are searched only if no block matches directly; but with a
graph-nested Product in the first script and a directly matching
Product block in the second, the reader returns the graph-nested one. -/
theorem C7_counterexample :
    extractJsonLd graphOrderPage = graphNestedProduct
    ∧ jsIsProductType (jsGet directProduct "@type") = true
    ∧ jsGet graphNestedProduct "name" = .vStr "first"
    ∧ jsGet directProduct "name" = .vStr "second"
    ∧ graphNestedProduct ≠ directProduct := by
  refine ⟨rfl, rfl, rfl, rfl, ?_⟩
  intro hh
  simp [graphNestedProduct, directProduct] at hh

/-- Claim C7 (corrected, amended theorem).  The reader scans the parsed
blocks once, in order, checking each block's own `@type` first and then
searching that same block's `@graph`; the first Product found in this
interleaved order is selected, so a graph-nested Product in an earlier
block wins over a direct match in a later block.  Stated as equality
with the independently written interleaved selection function, for every
page whose truthy blocks have array-or-absent graphs without nullish
entries (on other graphs the reader's `find` call throws and the whole
scan returns null). -/
theorem C7_amended_interleaved (page : Page)
    (h : (page.jsonLdScripts.filter jsTruthy).all graphSafe = true) :
    extractJsonLd page = (interleavedSelect (page.jsonLdScripts.filter jsTruthy)).getD .vNull := by
  unfold extractJsonLd
  rw [extractJsonLdLoop_eq _ h]

/-- Claim C7 witness: the amended theorem at the two-script page. -/
theorem C7_witness :
    extractJsonLd graphOrderPage =
      (interleavedSelect (graphOrderPage.jsonLdScripts.filter jsTruthy)).getD .vNull :=
  C7_amended_interleaved graphOrderPage (by decide)

/-- Claim C8 (confirmed).  `resolveUrl` returns its first argument
unchanged whenever it starts with the `http://` or `https://` scheme
prefix; it resolves relative references against the base by standard
relative-URL resolution, as at the spec's example
`resolveUrl("img.jpg", "https://a.com/b/c")`; already-absolute URLs pass
through untouched; and a malformed base makes it return null. -/
theorem C8_resolveUrl :
    (∀ u b, (strStarts u "http://" = true ∨ strStarts u "https://" = true) →
      resolveUrl (.vStr u) b = some u)
    ∧ resolveUrl (.vStr "img.jpg") "https://a.com/b/c" = some "https://a.com/b/img.jpg"
    ∧ resolveUrl (.vStr "https://x.com/y.png") "https://a.com" = some "https://x.com/y.png"
    ∧ resolveUrl (.vStr "not a url") "not a base" = none := by
  refine ⟨?_, by decide, by decide, by decide⟩
  intro u b hpre
  have hne : u ≠ "" := by
    rintro rfl
    rcases hpre with hp | hp <;> simp [strStarts] at hp
  rcases hpre with hp | hp <;> simp [resolveUrl, jsTruthy, jsIsString, hne, hp]

/-- Claim C8 witness: the passthrough clause applied at a concrete
absolute URL. -/
theorem C8_witness : resolveUrl (.vStr "http://q.com/z") "x" = some "http://q.com/z" :=
  C8_resolveUrl.1 "http://q.com/z" "x" (Or.inl (by decide))

/-- Claim C9 (code bug).  The pure extractors are meant never to raise
for data-shape reasons, and every access in `extractFromJsonLd` and
almost every access in `extractFromEmbeddedJson` is guarded; but the
first-variant price read is not: on a product whose `variants` array
starts with null, `extractFromEmbeddedJson` throws a TypeError instead
of returning a record. -/
theorem C9_embedded_throws :
    extractFromEmbeddedJson (.vObj [("product", .vObj [("variants", .vArr [.vNull])])]) "https://a.com/"
      = .error "TypeError: Cannot read properties of null (reading price)" := rfl

/-- Claim C10 (confirmed).  For every embedded product object whose
`price` key holds the number 0 and which has no `priceValue`,
`finalPrice`, `pricing` or `variants` keys, the extracted price is null
rather than 0: the alias chain `price || priceValue || finalPrice`
treats 0 as falsy and falls through to undefined, which `extractPrice`
maps to null. -/
theorem C10_zero_price (rest : List (String × JSValue)) (base : String) (r : ExtractResult)
    (h1 : rest.lookup "priceValue" = none) (h2 : rest.lookup "finalPrice" = none)
    (h3 : rest.lookup "pricing" = none) (h4 : rest.lookup "variants" = none)
    (h : extractFromEmbeddedJson (.vObj [("product", .vObj (("price", .vNum (.fin 0)) :: rest))]) base = .ok r) :
    r.price = .vNull := by
  have hget : jsGet (.vObj (("price", JSValue.vNum (.fin 0)) :: rest)) "price" = .vNum (.fin 0) := by
    simp [jsGet, List.lookup]
  have hgetPV : jsGet (.vObj (("price", JSValue.vNum (.fin 0)) :: rest)) "priceValue" = .vUndefined := by
    simp [jsGet, List.lookup, h1]
  have hgetFP : jsGet (.vObj (("price", JSValue.vNum (.fin 0)) :: rest)) "finalPrice" = .vUndefined := by
    simp [jsGet, List.lookup, h2]
  have hprice : embPriceE (.vObj (("price", JSValue.vNum (.fin 0)) :: rest)) = .ok .vNull := by
    unfold embPriceE
    rw [hget, hgetPV, hgetFP]
    simp [jsIsUndefined, jsOr, jsTruthy, JSNum.truthy, extractPrice, optNumToVal]
  have hloc : locateProduct (.vObj [("product", .vObj (("price", JSValue.vNum (.fin 0)) :: rest))]) =
      .vObj (("price", JSValue.vNum (.fin 0)) :: rest) := by
    simp [locateProduct, jsGet, List.lookup, jsTruthy]
  simp only [extractFromEmbeddedJson] at h
  rw [hloc] at h
  split at h
  · next hguard => simp [jsTruthy, jsTypeofObject] at hguard
  · split at h
    · next hguard => simp [jsTruthy] at hguard
    · simp only [hprice, bind, Except.bind, pure, Except.pure, Except.ok.injEq] at h
      subst h
      rfl

/-- Claim C10 witness: the theorem at the minimal product object with
price 0 and nothing else. -/
theorem C10_witness : ExtractResult.price emptyExtract = .vNull :=
  C10_zero_price [] "https://a.com/" emptyExtract rfl rfl rfl rfl rfl
